import Mathlib

/-!
Verification development for the polygon-ton-bridge repository.

The repository contains two variants of the `PolygonBridge` Solidity contract:

* `BridgeA` models `src/contracts/polygon/bridge/PolygonBridge.sol`
  (UUPS variant: auto-completion at the relayer threshold, no fee
  accumulator, `updateConfig` without validation).
* `BridgeB` models `src/unnamed/part_005`
  (fee-collecting variant: `confirmTransfer` promotes to `Confirmed`, a
  separate operator `completeTransfer` step, `unlockTokens` for the
  reverse direction, validated `updateConfig`, `collectedFees`).
* `Relayer` models the reconciliation loop of `src/unnamed/part_006`
  (second copy, the one wired to `tonService`) together with the retry
  loop of `src/relayer/src/tonService.ts` (`sendNativeTon`).

Modelling conventions:

* `address` and `bytes32` values are modelled as `Nat` (0 is `address(0)`).
* `uint256` values are modelled as `Nat`; Solidity 0.8 checked arithmetic
  is made explicit exactly where an overflow or underflow is reachable
  with realistic inputs (the fee multiplication, the fee subtraction and
  the `collectedFees` accumulation); counter increments
  (`transferNonce++`, `confirmations++`) are modelled as plain `Nat`
  successor since reaching `2^256` of them requires `2^256` transactions.
* `keccak256 (abi.encodePacked ...)` is modelled as an injective function:
  a transfer id is represented by its hash preimage.  For `BridgeB`, which
  derives ids from two different preimage shapes (`bridgeToTON` and
  `unlockTokens`), the id type is a sum of the two shapes, i.e. the hash
  is additionally modelled as collision-free across the two encodings.
* An external call (EVM transaction) either succeeds, returning the new
  state together with the list of emitted events / outgoing value
  transfers, or reverts with an error and leaves the state unchanged;
  this is the `Except Err (State x List Event)` shape, and the `step`
  function applies the rollback-on-revert semantics.
* Role-based access control is modelled as Bool-valued allow-lists in the
  state; role grants are admin-gated operations as in OpenZeppelin
  AccessControl with `DEFAULT_ADMIN_ROLE` as the role admin.
-/

set_option maxHeartbeats 1600000

namespace Bridge

/-- Revert reasons: the custom errors declared by the two contract
variants, the OpenZeppelin `EnforcedPause` / `ExpectedPause` /
`AccessControlUnauthorizedAccount` errors, the Solidity 0.8 arithmetic
panic, and `require` with a reason string. -/
inductive Err where
  | insufficientAmount
  | exceedsMaxAmount
  | unsupportedToken
  | invalidRecipient
  | transferNotFound
  | alreadyConfirmed
  | alreadyCompleted
  | bridgeDisabled
  | insufficientConfirmations
  | transferAlreadyProcessed
  | invalidConfiguration
  | enforcedPause
  | expectedPause
  | unauthorized
  | panic
  | requireMsg (reason : String)
deriving DecidableEq

/-- Point update of a total function, modelling a Solidity mapping write. -/
def store {α β : Type} [DecidableEq α] (m : α → β) (k : α) (v : β) : α → β :=
  fun x => if x = k then v else m x

/-- Point update of a two-level mapping. -/
def store2 {α β γ : Type} [DecidableEq α] [DecidableEq β]
    (m : α → β → γ) (a : α) (b : β) (v : γ) : α → β → γ :=
  fun x y => if x = a ∧ y = b then v else m x y

/-- Solidity checked arithmetic bound. -/
def UINT256 : Nat := 2 ^ 256

end Bridge

namespace BridgeA

open Bridge

/-- `struct BridgeConfig` of `src/contracts/polygon/bridge/PolygonBridge.sol`. -/
structure BridgeConfig where
  minBridgeAmount : Nat
  maxBridgeAmount : Nat
  feeBasisPoints : Nat
  relayerThreshold : Nat
  enabled : Bool
deriving DecidableEq

/-- Preimage of the transfer id hash:
`keccak256(abi.encodePacked(msg.sender, token, amount, tonRecipient, transferNonce++))`,
with keccak256 modelled as injective. -/
structure TransferId where
  sender : Nat
  token : Nat
  amount : Nat
  tonRecipient : String
  nonce : Nat
deriving DecidableEq

/-- `struct Transfer` of the UUPS variant. -/
structure Transfer where
  sender : Nat
  token : Nat
  amount : Nat
  tonRecipient : String
  timestamp : Nat
  confirmations : Nat
  completed : Bool
deriving DecidableEq

/-- The all-zero record a Solidity mapping returns for a missing key. -/
def emptyTransfer : Transfer :=
  { sender := 0, token := 0, amount := 0, tonRecipient := "",
    timestamp := 0, confirmations := 0, completed := false }

/-- Events of the UUPS variant. -/
inductive Event where
  | bridgeInitiated (transferId : TransferId) (sender token amount : Nat)
      (tonRecipient : String) (fee : Nat)
  | bridgeConfirmed (transferId : TransferId) (relayer : Nat)
  | bridgeCompleted (transferId : TransferId)
  | tokenSupported (token : Nat) (supported : Bool)
  | configUpdated (newConfig : BridgeConfig)
deriving DecidableEq

/-- Contract storage of the UUPS variant, together with the role
allow-lists of AccessControl and the Pausable flag. -/
structure State where
  config : BridgeConfig
  transferNonce : Nat
  supportedTokens : Nat → Bool
  transfers : TransferId → Transfer
  hasConfirmed : TransferId → Nat → Bool
  paused : Bool
  relayers : Nat → Bool
  admins : Nat → Bool
  pausers : Nat → Bool

/-- State right after `initialize(_admin, _wrappedTON, _config)`:
admin gets `DEFAULT_ADMIN_ROLE` and `PAUSER_ROLE`, the native token
(address 0) is supported by default. -/
def initState (admin : Nat) (cfg : BridgeConfig) : State :=
  { config := cfg
    transferNonce := 0
    supportedTokens := store (fun _ => false) 0 true
    transfers := fun _ => emptyTransfer
    hasConfirmed := fun _ _ => false
    paused := false
    relayers := fun _ => false
    admins := store (fun _ => false) admin true
    pausers := store (fun _ => false) admin true }

/-- The id produced by a `bridgeToTON` call executed in state `s`. -/
def producedId (s : State) (sender : Nat) (tonRecipient : String)
    (token amount : Nat) : TransferId :=
  { sender := sender, token := token, amount := amount,
    tonRecipient := tonRecipient, nonce := s.transferNonce }

/-- `bridgeToTON` of the UUPS variant.  `msgValue` is the attached native
value, `timestamp` is `block.timestamp`, and `pullOk` tells whether the
ERC20 `safeTransferFrom` pull would succeed. -/
def bridgeToTON (s : State) (sender msgValue timestamp : Nat)
    (tonRecipient : String) (token amount : Nat) (pullOk : Bool) :
    Except Err (State × List Event) :=
  if s.paused then .error .enforcedPause
  else if !s.config.enabled then .error .bridgeDisabled
  else if !s.supportedTokens token then .error .unsupportedToken
  else if amount < s.config.minBridgeAmount then .error .insufficientAmount
  else if s.config.maxBridgeAmount < amount then .error .exceedsMaxAmount
  else if UINT256 ≤ amount * s.config.feeBasisPoints then .error .panic
  else
    let fee := amount * s.config.feeBasisPoints / 10000
    if amount < fee then .error .panic
    else
      let netAmount := amount - fee
      if token = 0 ∧ msgValue ≠ amount then
        .error (.requireMsg "Incorrect ETH amount")
      else if token ≠ 0 ∧ pullOk = false then
        .error (.requireMsg "ERC20 transfer failed")
      else
        let id := producedId s sender tonRecipient token amount
        let t : Transfer :=
          { sender := sender, token := token, amount := netAmount,
            tonRecipient := tonRecipient, timestamp := timestamp,
            confirmations := 0, completed := false }
        .ok ({ s with
                transferNonce := s.transferNonce + 1
                transfers := store s.transfers id t },
             [.bridgeInitiated id sender token netAmount tonRecipient fee])

/-- `confirmTransfer` of the UUPS variant.  Note: this function carries
`onlyRole(RELAYER_ROLE)` but no `whenNotPaused` modifier in the source. -/
def confirmTransfer (s : State) (sender : Nat) (id : TransferId) :
    Except Err (State × List Event) :=
  if !s.relayers sender then .error .unauthorized
  else
    let t := s.transfers id
    if t.timestamp = 0 then .error .transferNotFound
    else if t.completed then .error .alreadyCompleted
    else if s.hasConfirmed id sender then .error .alreadyConfirmed
    else
      let newCount := t.confirmations + 1
      let done := decide (s.config.relayerThreshold ≤ newCount)
      let t1 := { t with confirmations := newCount, completed := done }
      .ok ({ s with
              transfers := store s.transfers id t1
              hasConfirmed := store2 s.hasConfirmed id sender true },
           .bridgeConfirmed id sender ::
             (if done then [.bridgeCompleted id] else []))

/-- `updateConfig` of the UUPS variant: admin-gated, no validation,
whole-struct replacement. -/
def updateConfig (s : State) (sender : Nat) (newConfig : BridgeConfig) :
    Except Err (State × List Event) :=
  if !s.admins sender then .error .unauthorized
  else .ok ({ s with config := newConfig }, [.configUpdated newConfig])

/-- `setSupportedToken` of the UUPS variant. -/
def setSupportedToken (s : State) (sender token : Nat) (supported : Bool) :
    Except Err (State × List Event) :=
  if !s.admins sender then .error .unauthorized
  else .ok ({ s with supportedTokens := store s.supportedTokens token supported },
            [.tokenSupported token supported])

/-- `pause` (PAUSER_ROLE; OpenZeppelin `_pause` reverts when already paused). -/
def pause (s : State) (sender : Nat) : Except Err (State × List Event) :=
  if !s.pausers sender then .error .unauthorized
  else if s.paused then .error .enforcedPause
  else .ok ({ s with paused := true }, [])

/-- `unpause` (DEFAULT_ADMIN_ROLE; `_unpause` reverts when not paused). -/
def unpause (s : State) (sender : Nat) : Except Err (State × List Event) :=
  if !s.admins sender then .error .unauthorized
  else if !s.paused then .error .expectedPause
  else .ok ({ s with paused := false }, [])

/-- `grantRole(RELAYER_ROLE, account)`, gated by the role admin. -/
def grantRelayer (s : State) (sender account : Nat) :
    Except Err (State × List Event) :=
  if !s.admins sender then .error .unauthorized
  else .ok ({ s with relayers := store s.relayers account true }, [])

/-- `revokeRole(RELAYER_ROLE, account)`. -/
def revokeRelayer (s : State) (sender account : Nat) :
    Except Err (State × List Event) :=
  if !s.admins sender then .error .unauthorized
  else .ok ({ s with relayers := store s.relayers account false }, [])

/-- `getTransfer`: the read-only lookup. -/
def getTransfer (s : State) (id : TransferId) : Transfer :=
  s.transfers id

/-- The set of identities whose flag is set in a two-level Bool map. -/
def attSetOf (hc : TransferId → Nat → Bool) (id : TransferId) : Set Nat :=
  { r | hc id r = true }

/-- The set of relayer identities whose attestation flag
`hasConfirmed[id][r]` is set in state `s`. -/
def attesters (s : State) (id : TransferId) : Set Nat :=
  attSetOf s.hasConfirmed id

/-- Inductive invariant of the UUPS ledger: ids carrying a nonce the
ledger has not consumed yet are unused, and every transfer's
confirmation counter equals the number of distinct relayer identities
with a set attestation flag. -/
def Inv (s : State) : Prop :=
  (∀ id : TransferId, s.transferNonce ≤ id.nonce →
      s.transfers id = emptyTransfer ∧ ∀ r, s.hasConfirmed id r = false) ∧
  ∀ id : TransferId, (attSetOf s.hasConfirmed id).Finite ∧
      (s.transfers id).confirmations = (attSetOf s.hasConfirmed id).ncard

/-- One external call to the UUPS variant. -/
inductive Op where
  | bridge (sender msgValue timestamp : Nat) (tonRecipient : String)
      (token amount : Nat) (pullOk : Bool)
  | confirm (sender : Nat) (id : TransferId)
  | update (sender : Nat) (newConfig : BridgeConfig)
  | setToken (sender token : Nat) (supported : Bool)
  | doPause (sender : Nat)
  | doUnpause (sender : Nat)
  | grantRel (sender account : Nat)
  | revokeRel (sender account : Nat)

/-- Dispatch one call. -/
def run (s : State) : Op → Except Err (State × List Event)
  | .bridge sender msgValue timestamp tonRecipient token amount pullOk =>
      bridgeToTON s sender msgValue timestamp tonRecipient token amount pullOk
  | .confirm sender id => confirmTransfer s sender id
  | .update sender newConfig => updateConfig s sender newConfig
  | .setToken sender token supported => setSupportedToken s sender token supported
  | .doPause sender => pause s sender
  | .doUnpause sender => unpause s sender
  | .grantRel sender account => grantRelayer s sender account
  | .revokeRel sender account => revokeRelayer s sender account

/-- Transaction semantics: a revert rolls the state back. -/
def step (s : State) (op : Op) : State :=
  match run s op with
  | .ok (s1, _) => s1
  | .error _ => s

/-- Events emitted by one call (none on revert). -/
def emitted (s : State) (op : Op) : List Event :=
  match run s op with
  | .ok (_, evs) => evs
  | .error _ => []

/-- States reachable from a freshly initialized contract. -/
inductive Reachable : State → Prop
  | init (admin : Nat) (cfg : BridgeConfig) (h : admin ≠ 0) :
      Reachable (initState admin cfg)
  | step {s : State} (h : Reachable s) (op : Op) : Reachable (step s op)

/-- Reachability of one state from another over any call sequence. -/
inductive ReachFrom : State → State → Prop
  | refl (s : State) : ReachFrom s s
  | step {s t : State} (h : ReachFrom s t) (op : Op) : ReachFrom s (step t op)

end BridgeA

namespace BridgeB

open Bridge

/-- `struct BridgeConfig` of `src/unnamed/part_005` (same fields). -/
structure BridgeConfig where
  minBridgeAmount : Nat
  maxBridgeAmount : Nat
  feeBasisPoints : Nat
  relayerThreshold : Nat
  enabled : Bool
deriving DecidableEq

/-- `enum TransferStatus` of `src/unnamed/part_005`. -/
inductive TransferStatus where
  | pending
  | confirmed
  | completed
  | cancelled
deriving DecidableEq

/-- Transfer ids of `src/unnamed/part_005`.  The contract derives ids by
hashing two different preimage shapes:
`bridgeToTON` hashes `(msg.sender, tonRecipient, token, amount, transferNonce++, block.timestamp)`
and `unlockTokens` hashes `(tonTxHash, recipient, token, amount)`.
keccak256 is modelled as injective and collision-free across the two
shapes, so an id is one of the two preimages. -/
inductive TransferId where
  | bridgeId (sender : Nat) (tonRecipient : String) (token amount nonce timestamp : Nat)
  | unlockId (tonTxHash recipient token amount : Nat)
deriving DecidableEq

/-- `struct BridgeTransfer` of `src/unnamed/part_005`. -/
structure BridgeTransfer where
  sender : Nat
  tonRecipient : String
  token : Nat
  amount : Nat
  fee : Nat
  timestamp : Nat
  tonTxHash : Nat
  status : TransferStatus
  confirmations : Nat
deriving DecidableEq

/-- The all-zero record a Solidity mapping returns for a missing key
(status 0 is `Pending`). -/
def emptyTransfer : BridgeTransfer :=
  { sender := 0, tonRecipient := "", token := 0, amount := 0, fee := 0,
    timestamp := 0, tonTxHash := 0, status := .pending, confirmations := 0 }

/-- Events of `src/unnamed/part_005`, together with outgoing value
transfers (`payout recipient token amount`: the native `call` or the
ERC20 `safeTransfer` performed by `unlockTokens` / `withdrawFees`). -/
inductive Event where
  | bridgeInitiated (transferId : TransferId) (sender : Nat)
      (tonRecipient : String) (token amount fee : Nat)
  | bridgeConfirmed (transferId : TransferId) (relayer confirmations : Nat)
  | bridgeCompleted (transferId : TransferId) (tonTxHash : Nat)
  | tokenUnlocked (transferId : TransferId) (recipient token amount : Nat)
  | configUpdated (minAmount maxAmount feeBps threshold : Nat)
  | tokenSupported (token : Nat) (supported : Bool)
  | payout (recipient token amount : Nat)
deriving DecidableEq

/-- Contract storage of `src/unnamed/part_005` plus role allow-lists. -/
structure State where
  config : BridgeConfig
  transfers : TransferId → BridgeTransfer
  relayerConfirmations : TransferId → Nat → Bool
  transferNonce : Nat
  feeCollector : Nat
  collectedFees : Nat
  supportedTokens : Nat → Bool
  paused : Bool
  relayers : Nat → Bool
  operators : Nat → Bool
  pausers : Nat → Bool
  admins : Nat → Bool

/-- State right after `initialize(_admin, _feeCollector, _config)`:
admin gets `DEFAULT_ADMIN_ROLE`, `OPERATOR_ROLE` and `PAUSER_ROLE`;
the native token (address 0) is supported by default. -/
def initState (admin feeCollector : Nat) (cfg : BridgeConfig) : State :=
  { config := cfg
    transfers := fun _ => emptyTransfer
    relayerConfirmations := fun _ _ => false
    transferNonce := 0
    feeCollector := feeCollector
    collectedFees := 0
    supportedTokens := store (fun _ => false) 0 true
    paused := false
    relayers := fun _ => false
    operators := store (fun _ => false) admin true
    pausers := store (fun _ => false) admin true
    admins := store (fun _ => false) admin true }

/-- The id produced by a `bridgeToTON` call executed in state `s`. -/
def producedId (s : State) (sender : Nat) (tonRecipient : String)
    (token amount timestamp : Nat) : TransferId :=
  .bridgeId sender tonRecipient token amount s.transferNonce timestamp

/-- `bridgeToTON` of `src/unnamed/part_005`.  Note: this variant never
consults `config.enabled`. -/
def bridgeToTON (s : State) (sender msgValue timestamp : Nat)
    (tonRecipient : String) (token amount : Nat) (pullOk : Bool) :
    Except Err (State × List Event) :=
  if s.paused then .error .enforcedPause
  else if !s.supportedTokens token then .error .unsupportedToken
  else if tonRecipient.length = 0 then .error .invalidRecipient
  else if amount < s.config.minBridgeAmount then .error .insufficientAmount
  else if s.config.maxBridgeAmount < amount then .error .exceedsMaxAmount
  else if UINT256 ≤ amount * s.config.feeBasisPoints then .error .panic
  else
    let fee := amount * s.config.feeBasisPoints / 10000
    if amount < fee then .error .panic
    else
      let netAmount := amount - fee
      let id := producedId s sender tonRecipient token amount timestamp
      if token = 0 ∧ msgValue ≠ amount then
        .error (.requireMsg "Incorrect POL amount")
      else if token ≠ 0 ∧ pullOk = false then
        .error (.requireMsg "ERC20 transfer failed")
      else if UINT256 ≤ s.collectedFees + fee then .error .panic
      else
        let t : BridgeTransfer :=
          { sender := sender, tonRecipient := tonRecipient, token := token,
            amount := netAmount, fee := fee, timestamp := timestamp,
            tonTxHash := 0, status := .pending, confirmations := 0 }
        .ok ({ s with
                transferNonce := s.transferNonce + 1
                transfers := store s.transfers id t
                collectedFees := s.collectedFees + fee },
             [.bridgeInitiated id sender tonRecipient token netAmount fee])

/-- `confirmTransfer` of `src/unnamed/part_005`: relayer-gated and
pause-gated; at the threshold it promotes the status to `Confirmed`
(not `Completed`) and emits no completion event. -/
def confirmTransfer (s : State) (sender : Nat) (id : TransferId) :
    Except Err (State × List Event) :=
  if !s.relayers sender then .error .unauthorized
  else if s.paused then .error .enforcedPause
  else
    let t := s.transfers id
    if t.sender = 0 then .error .transferNotFound
    else if t.status ≠ .pending then .error .transferAlreadyProcessed
    else if s.relayerConfirmations id sender then .error .alreadyConfirmed
    else
      let newCount := t.confirmations + 1
      let reached := decide (s.config.relayerThreshold ≤ newCount)
      let t1 := { t with confirmations := newCount,
                         status := if reached then .confirmed else .pending }
      .ok ({ s with
              transfers := store s.transfers id t1
              relayerConfirmations := store2 s.relayerConfirmations id sender true },
           [.bridgeConfirmed id sender newCount])

/-- `completeTransfer` of `src/unnamed/part_005`: operator-gated, requires
status `Confirmed`, records the TON transaction hash and finalizes. -/
def completeTransfer (s : State) (sender : Nat) (id : TransferId)
    (tonTxHash : Nat) : Except Err (State × List Event) :=
  if !s.operators sender then .error .unauthorized
  else
    let t := s.transfers id
    if t.status ≠ .confirmed then .error .insufficientConfirmations
    else
      let t1 := { t with tonTxHash := tonTxHash, status := .completed }
      .ok ({ s with transfers := store s.transfers id t1 },
           [.bridgeCompleted id tonTxHash])

/-- `unlockTokens` of `src/unnamed/part_005` (TON to Polygon direction).
`payOk` tells whether the outgoing value transfer would succeed.
Note: the function checks `transfers[transferId]` as a replay guard but
never writes to it. -/
def unlockTokens (s : State) (sender recipient token amount tonTxHash : Nat)
    (payOk : Bool) : Except Err (State × List Event) :=
  if !s.relayers sender then .error .unauthorized
  else if s.paused then .error .enforcedPause
  else if recipient = 0 then .error (.requireMsg "Invalid recipient")
  else if !s.supportedTokens token then .error .unsupportedToken
  else
    let id := TransferId.unlockId tonTxHash recipient token amount
    if ¬ ((s.transfers id).status = .pending ∨ (s.transfers id).sender = 0) then
      .error (.requireMsg "Already processed")
    else if !payOk then
      .error (.requireMsg "POL transfer failed")
    else
      .ok (s, [.payout recipient token amount,
               .tokenUnlocked id recipient token amount])

/-- `updateConfig` of `src/unnamed/part_005`: operator-gated, validated,
whole-struct replacement. -/
def updateConfig (s : State) (sender : Nat) (newConfig : BridgeConfig) :
    Except Err (State × List Event) :=
  if !s.operators sender then .error .unauthorized
  else if newConfig.maxBridgeAmount ≤ newConfig.minBridgeAmount then
    .error .invalidConfiguration
  else if 1000 < newConfig.feeBasisPoints then .error .invalidConfiguration
  else
    .ok ({ s with config := newConfig },
         [.configUpdated newConfig.minBridgeAmount newConfig.maxBridgeAmount
            newConfig.feeBasisPoints newConfig.relayerThreshold])

/-- `setSupportedToken` of `src/unnamed/part_005` (operator-gated). -/
def setSupportedToken (s : State) (sender token : Nat) (supported : Bool) :
    Except Err (State × List Event) :=
  if !s.operators sender then .error .unauthorized
  else .ok ({ s with supportedTokens := store s.supportedTokens token supported },
            [.tokenSupported token supported])

/-- `withdrawFees` of `src/unnamed/part_005` (admin-gated). -/
def withdrawFees (s : State) (sender : Nat) (payOk : Bool) :
    Except Err (State × List Event) :=
  if !s.admins sender then .error .unauthorized
  else if !payOk then .error (.requireMsg "Fee transfer failed")
  else .ok ({ s with collectedFees := 0 },
            [.payout s.feeCollector 0 s.collectedFees])

/-- `pause` (PAUSER_ROLE). -/
def pause (s : State) (sender : Nat) : Except Err (State × List Event) :=
  if !s.pausers sender then .error .unauthorized
  else if s.paused then .error .enforcedPause
  else .ok ({ s with paused := true }, [])

/-- `unpause` (DEFAULT_ADMIN_ROLE). -/
def unpause (s : State) (sender : Nat) : Except Err (State × List Event) :=
  if !s.admins sender then .error .unauthorized
  else if !s.paused then .error .expectedPause
  else .ok ({ s with paused := false }, [])

/-- `grantRole(RELAYER_ROLE, account)`. -/
def grantRelayer (s : State) (sender account : Nat) :
    Except Err (State × List Event) :=
  if !s.admins sender then .error .unauthorized
  else .ok ({ s with relayers := store s.relayers account true }, [])

/-- `revokeRole(RELAYER_ROLE, account)`. -/
def revokeRelayer (s : State) (sender account : Nat) :
    Except Err (State × List Event) :=
  if !s.admins sender then .error .unauthorized
  else .ok ({ s with relayers := store s.relayers account false }, [])

/-- `getTransfer`: the read-only lookup. -/
def getTransfer (s : State) (id : TransferId) : BridgeTransfer :=
  s.transfers id

/-- The set of identities whose flag is set in a two-level Bool map. -/
def attSetOf (rc : TransferId → Nat → Bool) (id : TransferId) : Set Nat :=
  { r | rc id r = true }

/-- The set of relayer identities whose attestation flag
`relayerConfirmations[id][r]` is set in state `s`. -/
def attesters (s : State) (id : TransferId) : Set Nat :=
  attSetOf s.relayerConfirmations id

/-- Inductive invariant of the `src/unnamed/part_005` ledger: bridge ids
carrying a nonce the ledger has not consumed yet are unused, unlock ids
are never persisted at all, and every transfer's confirmation counter
equals the number of distinct relayer identities with a set attestation
flag. -/
def Inv (s : State) : Prop :=
  (∀ sd rc tk am nn ts, s.transferNonce ≤ nn →
      s.transfers (.bridgeId sd rc tk am nn ts) = emptyTransfer ∧
      ∀ r, s.relayerConfirmations (.bridgeId sd rc tk am nn ts) r = false) ∧
  (∀ hh rp tk am,
      s.transfers (.unlockId hh rp tk am) = emptyTransfer ∧
      ∀ r, s.relayerConfirmations (.unlockId hh rp tk am) r = false) ∧
  ∀ id : TransferId, (attSetOf s.relayerConfirmations id).Finite ∧
      (s.transfers id).confirmations = (attSetOf s.relayerConfirmations id).ncard

/-- One external call to the `src/unnamed/part_005` variant. -/
inductive Op where
  | bridge (sender msgValue timestamp : Nat) (tonRecipient : String)
      (token amount : Nat) (pullOk : Bool)
  | confirm (sender : Nat) (id : TransferId)
  | complete (sender : Nat) (id : TransferId) (tonTxHash : Nat)
  | unlock (sender recipient token amount tonTxHash : Nat) (payOk : Bool)
  | update (sender : Nat) (newConfig : BridgeConfig)
  | setToken (sender token : Nat) (supported : Bool)
  | withdraw (sender : Nat) (payOk : Bool)
  | doPause (sender : Nat)
  | doUnpause (sender : Nat)
  | grantRel (sender account : Nat)
  | revokeRel (sender account : Nat)

/-- Dispatch one call. -/
def run (s : State) : Op → Except Err (State × List Event)
  | .bridge sender msgValue timestamp tonRecipient token amount pullOk =>
      bridgeToTON s sender msgValue timestamp tonRecipient token amount pullOk
  | .confirm sender id => confirmTransfer s sender id
  | .complete sender id tonTxHash => completeTransfer s sender id tonTxHash
  | .unlock sender recipient token amount tonTxHash payOk =>
      unlockTokens s sender recipient token amount tonTxHash payOk
  | .update sender newConfig => updateConfig s sender newConfig
  | .setToken sender token supported => setSupportedToken s sender token supported
  | .withdraw sender payOk => withdrawFees s sender payOk
  | .doPause sender => pause s sender
  | .doUnpause sender => unpause s sender
  | .grantRel sender account => grantRelayer s sender account
  | .revokeRel sender account => revokeRelayer s sender account

/-- Transaction semantics: a revert rolls the state back. -/
def step (s : State) (op : Op) : State :=
  match run s op with
  | .ok (s1, _) => s1
  | .error _ => s

/-- Events emitted by one call (none on revert). -/
def emitted (s : State) (op : Op) : List Event :=
  match run s op with
  | .ok (_, evs) => evs
  | .error _ => []

/-- Outgoing value transfers among a list of effects. -/
def payoutsIn (evs : List Event) : List (Nat × Nat × Nat) :=
  evs.filterMap fun e =>
    match e with
    | .payout recipient token amount => some (recipient, token, amount)
    | _ => none

/-- States reachable from a freshly initialized contract. -/
inductive Reachable : State → Prop
  | init (admin feeCollector : Nat) (cfg : BridgeConfig)
      (h : admin ≠ 0) (h2 : feeCollector ≠ 0) :
      Reachable (initState admin feeCollector cfg)
  | step {s : State} (h : Reachable s) (op : Op) : Reachable (step s op)

/-- Reachability of one state from another over any call sequence. -/
inductive ReachFrom : State → State → Prop
  | refl (s : State) : ReachFrom s s
  | step {s t : State} (h : ReachFrom s t) (op : Op) : ReachFrom s (step t op)

end BridgeB

namespace Relayer

/-- One `BridgeInitiated` log observed by the loop: the block it was
emitted in and the transfer id it carries. -/
structure BridgeEvent where
  blockNumber : Nat
  transferId : BridgeA.TransferId
deriving DecidableEq

/-- The chain as the loop sees it in one cycle: the current block height,
the full append-only log of `BridgeInitiated` events, and the on-chain
transfer store read back through `getTransfer`. -/
structure Chain where
  currentBlock : Nat
  events : List BridgeEvent
  transfers : BridgeA.TransferId → BridgeA.Transfer

/-- The only loop-owned state: the in-memory `lastBlock` cursor. -/
structure LoopState where
  lastBlock : Nat
deriving DecidableEq

/-- `maxRetries` of `sendNativeTon` in `src/relayer/src/tonService.ts`. -/
def maxRetries : Nat := 3

/-- The retry loop of `sendNativeTon`: attempts are numbered from 1;
`attemptOk k` tells whether the k-th send attempt succeeds; the loop
returns on the first success and gives up after attempt `maxRetries`.
The result is the success flag and the number of the last attempt made.
The fuel argument is `maxRetries + 1 - attempt` and only serves
termination; the `attempt = maxRetries` exit fires first. -/
def sendNativeTonAux (attemptOk : Nat → Bool) : Nat → Nat → Bool × Nat
  | attempt, 0 => (false, attempt)
  | attempt, fuel + 1 =>
      if attemptOk attempt then (true, attempt)
      else if attempt = maxRetries then (false, attempt)
      else sendNativeTonAux attemptOk (attempt + 1) fuel

/-- `sendNativeTon` of `src/relayer/src/tonService.ts`. -/
def sendNativeTon (attemptOk : Nat → Bool) : Bool × Nat :=
  sendNativeTonAux attemptOk 1 maxRetries

/-- The block-range filter of one `poll` cycle: the `getLogs` call over
`[lastBlock + 1, currentBlock]`. -/
def scanned (chain : Chain) (ls : LoopState) : List BridgeEvent :=
  chain.events.filter fun e =>
    decide (ls.lastBlock + 1 ≤ e.blockNumber) && decide (e.blockNumber ≤ chain.currentBlock)

/-- One `poll` cycle of the relayer loop in `src/unnamed/part_006`
(the copy wired to `sendNativeTon`).  Mirrors the source order: if no new
block, return; otherwise the cursor is advanced to `currentBlock` up
front; each event in range is processed in order: the on-chain record is
read back, completed transfers are skipped, the TON send is attempted
with its internal retries, and only on success is `confirmTransfer`
submitted.  A failed send just skips the event.  Returns the new cursor
and the list of transfer ids for which `confirmTransfer` was submitted. -/
def poll (chain : Chain) (attemptOk : BridgeA.TransferId → Nat → Bool)
    (ls : LoopState) : LoopState × List BridgeA.TransferId :=
  if chain.currentBlock ≤ ls.lastBlock then (ls, [])
  else
    ({ lastBlock := chain.currentBlock },
     (scanned chain ls).filterMap fun e =>
       if (chain.transfers e.transferId).completed then none
       else if (sendNativeTon (attemptOk e.transferId)).1 then some e.transferId
       else none)

end Relayer

/-! Concrete example scenarios used to instantiate the claim theorems. -/

/-- Example configuration for the UUPS variant (threshold 2). -/
def exCfgA : BridgeA.BridgeConfig :=
  { minBridgeAmount := 1, maxBridgeAmount := 1000, feeBasisPoints := 30,
    relayerThreshold := 2, enabled := true }

/-- Freshly initialized UUPS bridge, admin address 1. -/
def exA0 : BridgeA.State := BridgeA.initState 1 exCfgA

/-- Relayer role granted to address 7. -/
def exA1 : BridgeA.State := BridgeA.step exA0 (.grantRel 1 7)

/-- User 5 bridged 100 native units to "EQx" (fee 0 at 30 bp). -/
def exA2 : BridgeA.State := BridgeA.step exA1 (.bridge 5 100 11 "EQx" 0 100 true)

/-- The id produced by that request (nonce 0). -/
def exIdA : BridgeA.TransferId :=
  { sender := 5, token := 0, amount := 100, tonRecipient := "EQx", nonce := 0 }

/-- Bridge paused by the admin after the request. -/
def exA3 : BridgeA.State := BridgeA.step exA2 (.doPause 1)

/-- Relayer 7 attested once (threshold 2, still not completed). -/
def exA2c : BridgeA.State := BridgeA.step exA2 (.confirm 7 exIdA)

/-- Threshold-1 configuration for the UUPS variant. -/
def exCfgA1 : BridgeA.BridgeConfig := { exCfgA with relayerThreshold := 1 }

/-- Threshold-1 UUPS chain: init, grant relayer 8, request, one attestation
reaching the threshold (transfer completed). -/
def exAA0 : BridgeA.State := BridgeA.initState 1 exCfgA1

def exAA1 : BridgeA.State := BridgeA.step exAA0 (.grantRel 1 8)

def exAA2 : BridgeA.State := BridgeA.step exAA1 (.bridge 5 100 11 "EQx" 0 100 true)

def exAA3 : BridgeA.State := BridgeA.step exAA2 (.confirm 8 exIdA)

/-- Example configuration for the `src/unnamed/part_005` variant
(threshold 1). -/
def exCfgB : BridgeB.BridgeConfig :=
  { minBridgeAmount := 1, maxBridgeAmount := 100000, feeBasisPoints := 30,
    relayerThreshold := 1, enabled := true }

/-- Freshly initialized part_005 bridge, admin 1, fee collector 2. -/
def exB0 : BridgeB.State := BridgeB.initState 1 2 exCfgB

/-- Relayer role granted to address 7. -/
def exB1 : BridgeB.State := BridgeB.step exB0 (.grantRel 1 7)

/-- User 5 bridged 10000 native units to "EQx" (fee 30 at 30 bp). -/
def exB2 : BridgeB.State := BridgeB.step exB1 (.bridge 5 10000 11 "EQx" 0 10000 true)

/-- The id produced by that request (nonce 0, timestamp 11). -/
def exIdB : BridgeB.TransferId := .bridgeId 5 "EQx" 0 10000 0 11

/-- Threshold-2 variant of the part_005 chain, for idempotence examples. -/
def exCfgB2 : BridgeB.BridgeConfig := { exCfgB with relayerThreshold := 2 }

def exBt0 : BridgeB.State := BridgeB.initState 1 2 exCfgB2

def exBt1 : BridgeB.State := BridgeB.step exBt0 (.grantRel 1 7)

def exBt2 : BridgeB.State := BridgeB.step exBt1 (.bridge 5 10000 11 "EQx" 0 10000 true)

/-- Relayer 7 attested once (threshold 2, status still pending). -/
def exBt3 : BridgeB.State := BridgeB.step exBt2 (.confirm 7 exIdB)

/-- part_005 chain used for the reverse direction: relayer 9 authorized. -/
def exBu : BridgeB.State := BridgeB.step exB0 (.grantRel 1 9)

/-- State after a first `unlockTokens(recipient 3, native token, amount 50,
tonTxHash 77)` release has been paid out. -/
def exBu1 : BridgeB.State := BridgeB.step exBu (.unlock 9 3 0 50 77 true)

/-- part_005 configuration with the bridge disabled. -/
def exCfgBd : BridgeB.BridgeConfig := { exCfgB with enabled := false }

def exBd0 : BridgeB.State := BridgeB.initState 1 2 exCfgBd

/-- part_005 bridge paused by the admin. -/
def exB3 : BridgeB.State := BridgeB.step exB2 (.doPause 1)

/-- UUPS configuration with the bridge disabled. -/
def exCfgAd : BridgeA.BridgeConfig := { exCfgA with enabled := false }

def exA0d : BridgeA.State := BridgeA.initState 1 exCfgAd

/-- An invalid configuration: minAmount above maxAmount and a fee rate
far above the 1000 bp ceiling. -/
def exBadCfgA : BridgeA.BridgeConfig :=
  { minBridgeAmount := 5, maxBridgeAmount := 3, feeBasisPoints := 50000,
    relayerThreshold := 0, enabled := true }

/-- A pending on-chain record as the relayer loop reads it back. -/
def exPendingTransfer : BridgeA.Transfer :=
  { sender := 5, token := 0, amount := 100, tonRecipient := "EQx",
    timestamp := 11, confirmations := 0, completed := false }

/-- A chain at height 5 with one BridgeInitiated event in block 5. -/
def exChainR : Relayer.Chain :=
  { currentBlock := 5, events := [{ blockNumber := 5, transferId := exIdA }],
    transfers := fun _ => exPendingTransfer }

/-- The same chain four blocks later. -/
def exChainR2 : Relayer.Chain := { exChainR with currentBlock := 9 }



namespace Bridge

theorem store_same {α β : Type} [DecidableEq α] (m : α → β) (k : α) (v : β) :
    store m k v k = v := by
  simp [store]

theorem store_other {α β : Type} [DecidableEq α] (m : α → β) (k x : α) (v : β)
    (h : x ≠ k) : store m k v x = m x := by
  simp [store, h]

theorem store2_same {α β γ : Type} [DecidableEq α] [DecidableEq β]
    (m : α → β → γ) (a : α) (b : β) (v : γ) : store2 m a b v a b = v := by
  simp [store2]

theorem store2_other {α β γ : Type} [DecidableEq α] [DecidableEq β]
    (m : α → β → γ) (a : α) (b : β) (v : γ) (x : α) (y : β)
    (h : ¬ (x = a ∧ y = b)) : store2 m a b v x y = m x y := by
  simp [store2, h]

theorem isOk_exists {ε α : Type} {e : Except ε α} (h : e.isOk = true) :
    ∃ a, e = .ok a := by
  cases e with
  | ok a => exact ⟨a, rfl⟩
  | error err => simp [Except.isOk, Except.toBool] at h

end Bridge

namespace BridgeA

open Bridge

theorem run_ok_nonce {s s1 : State} {op : Op} {evs : List Event}
    (h : run s op = .ok (s1, evs)) : s.transferNonce ≤ s1.transferNonce := by
  cases op <;>
    simp only [run, bridgeToTON, confirmTransfer, updateConfig, setSupportedToken,
      pause, unpause, grantRelayer, revokeRelayer] at h <;>
    (try split_ifs at h) <;> simp_all <;> (obtain ⟨h1, h2⟩ := h) <;> subst_vars <;> simp

theorem step_nonce_mono (s : State) (op : Op) :
    s.transferNonce ≤ (step s op).transferNonce := by
  unfold step
  cases h : run s op with
  | ok p =>
      obtain ⟨s1, evs⟩ := p
      exact run_ok_nonce h
  | error e => exact Nat.le_refl _

theorem reachFrom_nonce_mono {s t : State} (h : ReachFrom s t) :
    s.transferNonce ≤ t.transferNonce := by
  induction h with
  | refl => exact Nat.le_refl _
  | step h op ih => exact Nat.le_trans ih (step_nonce_mono _ op)

theorem inv_init (admin : Nat) (cfg : BridgeConfig) : Inv (initState admin cfg) := by
  unfold Inv initState
  refine ⟨fun id _ => ⟨rfl, fun r => rfl⟩, fun id => ?_⟩
  have hset : attSetOf (fun _ _ => false) id = (∅ : Set Nat) := by
    ext r; simp [attSetOf]
  dsimp only
  rw [hset]
  exact ⟨Set.finite_empty, by simp [emptyTransfer]⟩

theorem inv_run_ok {s s1 : State} {op : Op} {evs : List Event}
    (hInv : Inv s) (h : run s op = .ok (s1, evs)) : Inv s1 := by
  obtain ⟨hFresh, hCount⟩ := hInv
  cases op with
  | bridge sender msgValue timestamp tonRecipient token amount pullOk =>
      simp only [run, bridgeToTON] at h
      split_ifs at h
      simp only [Except.ok.injEq, Prod.mk.injEq] at h
      obtain ⟨hs, hevs⟩ := h
      subst hs
      unfold Inv
      dsimp only
      constructor
      · intro id hid
        have hid1 : s.transferNonce + 1 ≤ id.nonce := hid
        have hne : id ≠ producedId s sender tonRecipient token amount := by
          intro he
          have : id.nonce = s.transferNonce := by rw [he]; rfl
          omega
        have hfr := hFresh id (by omega)
        exact ⟨by rw [store_other _ _ _ _ hne]; exact hfr.1, hfr.2⟩
      · intro id
        by_cases hcase : id = producedId s sender tonRecipient token amount
        · subst hcase
          have hfr := hFresh (producedId s sender tonRecipient token amount) (Nat.le_refl _)
          have hset : attSetOf s.hasConfirmed (producedId s sender tonRecipient token amount)
              = (∅ : Set Nat) := by
            ext r; simp [attSetOf, hfr.2 r]
          rw [hset, store_same]
          exact ⟨Set.finite_empty, by simp⟩
        · rw [store_other _ _ _ _ hcase]
          exact hCount id
  | confirm sender id0 =>
      simp only [run, confirmTransfer] at h
      split_ifs at h with hrole hts hcomp hflag hdone
      all_goals (
        simp only [Except.ok.injEq, Prod.mk.injEq] at h
        obtain ⟨hs, hevs⟩ := h
        subst hs
        unfold Inv
        dsimp only
        constructor
        · intro id hid
          have hfr := hFresh id hid
          have hne : id ≠ id0 := by
            intro he
            subst he
            rw [hfr.1] at hts
            exact hts rfl
          refine ⟨by rw [store_other _ _ _ _ hne]; exact hfr.1, fun r => ?_⟩
          rw [store2_other _ _ _ _ _ _ (fun hand => hne hand.1)]
          exact hfr.2 r
        · intro id
          by_cases hcase : id = id0
          · subst hcase
            have hsetEq : attSetOf (store2 s.hasConfirmed id sender true) id
                = insert sender (attSetOf s.hasConfirmed id) := by
              ext r
              by_cases hr : r = sender
              · subst hr; simp [attSetOf, store2]
              · simp [attSetOf, store2, hr]
            have hnotmem : sender ∉ attSetOf s.hasConfirmed id := by
              simp only [attSetOf, Set.mem_setOf_eq]
              simpa using hflag
            have hfin := (hCount id).1
            rw [hsetEq, store_same]
            refine ⟨hfin.insert sender, ?_⟩
            rw [Set.ncard_insert_of_not_mem hnotmem hfin]
            dsimp only
            rw [(hCount id).2]
          · have hsetEq : attSetOf (store2 s.hasConfirmed id0 sender true) id
                = attSetOf s.hasConfirmed id := by
              ext r; simp [attSetOf, store2, hcase]
            rw [hsetEq, store_other _ _ _ _ hcase]
            exact hCount id)
  | update sender newConfig =>
      simp only [run, updateConfig] at h
      split_ifs at h
      simp only [Except.ok.injEq, Prod.mk.injEq] at h
      obtain ⟨hs, hevs⟩ := h
      subst hs
      exact ⟨hFresh, hCount⟩
  | setToken sender token supported =>
      simp only [run, setSupportedToken] at h
      split_ifs at h
      simp only [Except.ok.injEq, Prod.mk.injEq] at h
      obtain ⟨hs, hevs⟩ := h
      subst hs
      exact ⟨hFresh, hCount⟩
  | doPause sender =>
      simp only [run, pause] at h
      split_ifs at h
      simp only [Except.ok.injEq, Prod.mk.injEq] at h
      obtain ⟨hs, hevs⟩ := h
      subst hs
      exact ⟨hFresh, hCount⟩
  | doUnpause sender =>
      simp only [run, unpause] at h
      split_ifs at h
      simp only [Except.ok.injEq, Prod.mk.injEq] at h
      obtain ⟨hs, hevs⟩ := h
      subst hs
      exact ⟨hFresh, hCount⟩
  | grantRel sender account =>
      simp only [run, grantRelayer] at h
      split_ifs at h
      simp only [Except.ok.injEq, Prod.mk.injEq] at h
      obtain ⟨hs, hevs⟩ := h
      subst hs
      exact ⟨hFresh, hCount⟩
  | revokeRel sender account =>
      simp only [run, revokeRelayer] at h
      split_ifs at h
      simp only [Except.ok.injEq, Prod.mk.injEq] at h
      obtain ⟨hs, hevs⟩ := h
      subst hs
      exact ⟨hFresh, hCount⟩

theorem inv_step (s : State) (op : Op) (hInv : Inv s) : Inv (step s op) := by
  unfold step
  cases h : run s op with
  | ok p =>
      obtain ⟨s1, evs⟩ := p
      exact inv_run_ok hInv h
  | error e => exact hInv

theorem inv_reachable {s : State} (h : Reachable s) : Inv s := by
  induction h with
  | init admin cfg hadmin => exact inv_init admin cfg
  | step h op ih => exact inv_step _ op ih

end BridgeA

namespace BridgeA

open Bridge

theorem step_of_run_ok {s s1 : State} {op : Op} {evs : List Event}
    (h : run s op = .ok (s1, evs)) : step s op = s1 := by
  simp [step, h]

theorem emitted_of_run_ok {s s1 : State} {op : Op} {evs : List Event}
    (h : run s op = .ok (s1, evs)) : emitted s op = evs := by
  simp [emitted, h]

theorem step_of_run_error {s : State} {op : Op} {e : Err}
    (h : run s op = .error e) : step s op = s := by
  simp [step, h]

/-- Characterization of a successful `confirmTransfer` call in the UUPS
variant: the guards that passed, the incremented counter, and completion
(with its event) exactly when the new count reaches the threshold read
from the current config. -/
theorem confirmTransfer_ok_spec {s s1 : State} {sender : Nat} {id : TransferId}
    {evs : List Event}
    (h : confirmTransfer s sender id = .ok (s1, evs)) :
    s.relayers sender = true ∧
    (s.transfers id).timestamp ≠ 0 ∧
    (s.transfers id).completed = false ∧
    s.hasConfirmed id sender = false ∧
    (s1.transfers id).confirmations = (s.transfers id).confirmations + 1 ∧
    ((s1.transfers id).completed = true ↔
       s.config.relayerThreshold ≤ (s.transfers id).confirmations + 1) ∧
    (Event.bridgeCompleted id ∈ evs ↔ (s1.transfers id).completed = true) ∧
    s1.config = s.config ∧
    s1.transferNonce = s.transferNonce ∧
    s1.hasConfirmed = store2 s.hasConfirmed id sender true := by
  simp only [confirmTransfer] at h
  split_ifs at h with hrole hts hcomp hflag hdone <;>
    (simp only [Except.ok.injEq, Prod.mk.injEq] at h
     obtain ⟨hs, hevs⟩ := h
     subst hs
     subst hevs
     simp only [decide_eq_true_eq] at hdone
     refine ⟨by simpa using hrole, hts, by simpa using hcomp, by simpa using hflag,
       by dsimp only; rw [store_same], ?_, ?_, rfl, rfl, rfl⟩ <;>
       (dsimp only; rw [store_same]; simp [hdone, decide_eq_true_eq]))

/-- A completed transfer record stays completed under every further
operation (needs the reachability invariant: `bridgeToTON` only ever
overwrites ids with a not-yet-consumed nonce, which are unused). -/
theorem step_completed_persists {s : State} (hInv : Inv s) (id : TransferId)
    (op : Op) (h : (s.transfers id).completed = true) :
    ((step s op).transfers id).completed = true := by
  obtain ⟨hFresh, hCount⟩ := hInv
  unfold step
  cases hrun : run s op with
  | error e => exact h
  | ok p =>
      obtain ⟨s1, evs⟩ := p
      cases op with
      | bridge sender msgValue timestamp tonRecipient token amount pullOk =>
          simp only [run, bridgeToTON] at hrun
          split_ifs at hrun
          simp only [Except.ok.injEq, Prod.mk.injEq] at hrun
          obtain ⟨hs, hevs⟩ := hrun
          subst hs
          dsimp only
          have hne : id ≠ producedId s sender tonRecipient token amount := by
            intro he
            have hfr := hFresh id (by rw [he]; exact Nat.le_refl _)
            rw [hfr.1] at h
            simp [emptyTransfer] at h
          rw [store_other _ _ _ _ hne]
          exact h
      | confirm sender id0 =>
          simp only [run, confirmTransfer] at hrun
          split_ifs at hrun with hrole hts hcomp hflag
          all_goals (
            simp only [Except.ok.injEq, Prod.mk.injEq] at hrun
            obtain ⟨hs, hevs⟩ := hrun
            subst hs
            dsimp only
            have hne : id ≠ id0 := by
              intro he
              subst he
              rw [h] at hcomp
              exact hcomp rfl
            rw [store_other _ _ _ _ hne]
            exact h)
      | update sender newConfig =>
          simp only [run, updateConfig] at hrun
          split_ifs at hrun
          simp only [Except.ok.injEq, Prod.mk.injEq] at hrun
          obtain ⟨hs, hevs⟩ := hrun
          subst hs
          exact h
      | setToken sender token supported =>
          simp only [run, setSupportedToken] at hrun
          split_ifs at hrun
          simp only [Except.ok.injEq, Prod.mk.injEq] at hrun
          obtain ⟨hs, hevs⟩ := hrun
          subst hs
          exact h
      | doPause sender =>
          simp only [run, pause] at hrun
          split_ifs at hrun
          simp only [Except.ok.injEq, Prod.mk.injEq] at hrun
          obtain ⟨hs, hevs⟩ := hrun
          subst hs
          exact h
      | doUnpause sender =>
          simp only [run, unpause] at hrun
          split_ifs at hrun
          simp only [Except.ok.injEq, Prod.mk.injEq] at hrun
          obtain ⟨hs, hevs⟩ := hrun
          subst hs
          exact h
      | grantRel sender account =>
          simp only [run, grantRelayer] at hrun
          split_ifs at hrun
          simp only [Except.ok.injEq, Prod.mk.injEq] at hrun
          obtain ⟨hs, hevs⟩ := hrun
          subst hs
          exact h
      | revokeRel sender account =>
          simp only [run, revokeRelayer] at hrun
          split_ifs at hrun
          simp only [Except.ok.injEq, Prod.mk.injEq] at hrun
          obtain ⟨hs, hevs⟩ := hrun
          subst hs
          exact h

/-- No operation other than `confirmTransfer` ever changes the completed
flag of any transfer (in a reachable state). -/
theorem step_completed_nonconfirm {s : State} (hInv : Inv s) (id : TransferId)
    (op : Op) (hop : ∀ sender id0, op ≠ Op.confirm sender id0) :
    ((step s op).transfers id).completed = (s.transfers id).completed := by
  obtain ⟨hFresh, hCount⟩ := hInv
  unfold step
  cases hrun : run s op with
  | error e => rfl
  | ok p =>
      obtain ⟨s1, evs⟩ := p
      cases op with
      | bridge sender msgValue timestamp tonRecipient token amount pullOk =>
          simp only [run, bridgeToTON] at hrun
          split_ifs at hrun
          simp only [Except.ok.injEq, Prod.mk.injEq] at hrun
          obtain ⟨hs, hevs⟩ := hrun
          subst hs
          dsimp only
          by_cases hcase : id = producedId s sender tonRecipient token amount
          · subst hcase
            have hfr := hFresh (producedId s sender tonRecipient token amount)
              (Nat.le_refl _)
            rw [store_same, hfr.1]
            rfl
          · rw [store_other _ _ _ _ hcase]
      | confirm sender id0 => exact absurd rfl (hop sender id0)
      | update sender newConfig =>
          simp only [run, updateConfig] at hrun
          split_ifs at hrun
          simp only [Except.ok.injEq, Prod.mk.injEq] at hrun
          obtain ⟨hs, hevs⟩ := hrun
          subst hs
          rfl
      | setToken sender token supported =>
          simp only [run, setSupportedToken] at hrun
          split_ifs at hrun
          simp only [Except.ok.injEq, Prod.mk.injEq] at hrun
          obtain ⟨hs, hevs⟩ := hrun
          subst hs
          rfl
      | doPause sender =>
          simp only [run, pause] at hrun
          split_ifs at hrun
          simp only [Except.ok.injEq, Prod.mk.injEq] at hrun
          obtain ⟨hs, hevs⟩ := hrun
          subst hs
          rfl
      | doUnpause sender =>
          simp only [run, unpause] at hrun
          split_ifs at hrun
          simp only [Except.ok.injEq, Prod.mk.injEq] at hrun
          obtain ⟨hs, hevs⟩ := hrun
          subst hs
          rfl
      | grantRel sender account =>
          simp only [run, grantRelayer] at hrun
          split_ifs at hrun
          simp only [Except.ok.injEq, Prod.mk.injEq] at hrun
          obtain ⟨hs, hevs⟩ := hrun
          subst hs
          rfl
      | revokeRel sender account =>
          simp only [run, revokeRelayer] at hrun
          split_ifs at hrun
          simp only [Except.ok.injEq, Prod.mk.injEq] at hrun
          obtain ⟨hs, hevs⟩ := hrun
          subst hs
          rfl

end BridgeA

namespace BridgeA

open Bridge

/-- Characterization of a successful `bridgeToTON` call in the UUPS
variant: the guards that passed, the consumed nonce, the persisted
record and the emitted event. -/
theorem bridgeToTON_ok_spec {s s1 : State} {sender msgValue timestamp : Nat}
    {tonRecipient : String} {token amount : Nat} {pullOk : Bool} {evs : List Event}
    (h : bridgeToTON s sender msgValue timestamp tonRecipient token amount pullOk
      = .ok (s1, evs)) :
    s.paused = false ∧ s.config.enabled = true ∧ s.supportedTokens token = true ∧
    s.config.minBridgeAmount ≤ amount ∧ amount ≤ s.config.maxBridgeAmount ∧
    s1.transferNonce = s.transferNonce + 1 ∧
    s1.transfers (producedId s sender tonRecipient token amount) =
      { sender := sender, token := token,
        amount := amount - amount * s.config.feeBasisPoints / 10000,
        tonRecipient := tonRecipient, timestamp := timestamp,
        confirmations := 0, completed := false } ∧
    evs = [Event.bridgeInitiated (producedId s sender tonRecipient token amount)
             sender token (amount - amount * s.config.feeBasisPoints / 10000)
             tonRecipient (amount * s.config.feeBasisPoints / 10000)] := by
  simp only [bridgeToTON] at h
  split_ifs at h with h1 h2 h3 h4 h5 h6 h7 h8 h9
  simp only [Except.ok.injEq, Prod.mk.injEq] at h
  obtain ⟨hs, hevs⟩ := h
  subst hs
  refine ⟨by simpa using h1, by simpa using h2, by simpa using h3, by omega, by omega,
    rfl, by dsimp only; rw [store_same], hevs.symm⟩

end BridgeA

namespace BridgeB

open Bridge

theorem step_of_run_okB {s s1 : State} {op : Op} {evs : List Event}
    (h : run s op = .ok (s1, evs)) : step s op = s1 := by
  simp [step, h]

theorem emitted_of_run_okB {s s1 : State} {op : Op} {evs : List Event}
    (h : run s op = .ok (s1, evs)) : emitted s op = evs := by
  simp [emitted, h]

theorem step_of_run_errorB {s : State} {op : Op} {e : Err}
    (h : run s op = .error e) : step s op = s := by
  simp [step, h]

/-- Characterization of a successful `bridgeToTON` call in the
`src/unnamed/part_005` variant: guards, fee arithmetic, consumed nonce,
persisted record, fee accumulation, and the emitted event. -/
theorem bridgeToTON_ok_specB {s s1 : State} {sender msgValue timestamp : Nat}
    {tonRecipient : String} {token amount : Nat} {pullOk : Bool} {evs : List Event}
    (h : bridgeToTON s sender msgValue timestamp tonRecipient token amount pullOk
      = .ok (s1, evs)) :
    s.paused = false ∧ s.supportedTokens token = true ∧
    tonRecipient.length ≠ 0 ∧
    s.config.minBridgeAmount ≤ amount ∧ amount ≤ s.config.maxBridgeAmount ∧
    amount * s.config.feeBasisPoints / 10000 ≤ amount ∧
    s1.transferNonce = s.transferNonce + 1 ∧
    s1.collectedFees = s.collectedFees + amount * s.config.feeBasisPoints / 10000 ∧
    s1.transfers (producedId s sender tonRecipient token amount timestamp) =
      { sender := sender, tonRecipient := tonRecipient, token := token,
        amount := amount - amount * s.config.feeBasisPoints / 10000,
        fee := amount * s.config.feeBasisPoints / 10000, timestamp := timestamp,
        tonTxHash := 0, status := .pending, confirmations := 0 } ∧
    evs = [Event.bridgeInitiated (producedId s sender tonRecipient token amount timestamp)
             sender tonRecipient token (amount - amount * s.config.feeBasisPoints / 10000)
             (amount * s.config.feeBasisPoints / 10000)] ∧
    s1.config = s.config ∧
    s1.relayerConfirmations = s.relayerConfirmations ∧
    s1 = { s with
            transferNonce := s.transferNonce + 1
            transfers := store s.transfers
              (producedId s sender tonRecipient token amount timestamp)
              { sender := sender, tonRecipient := tonRecipient, token := token,
                amount := amount - amount * s.config.feeBasisPoints / 10000,
                fee := amount * s.config.feeBasisPoints / 10000, timestamp := timestamp,
                tonTxHash := 0, status := .pending, confirmations := 0 }
            collectedFees := s.collectedFees + amount * s.config.feeBasisPoints / 10000 } := by
  simp only [bridgeToTON] at h
  by_cases h1 : s.paused = true
  · rw [if_pos h1] at h; exact Except.noConfusion h
  rw [if_neg h1] at h
  by_cases h2 : (!s.supportedTokens token) = true
  · rw [if_pos h2] at h; exact Except.noConfusion h
  rw [if_neg h2] at h
  by_cases h3 : tonRecipient.length = 0
  · rw [if_pos h3] at h; exact Except.noConfusion h
  rw [if_neg h3] at h
  by_cases h4 : amount < s.config.minBridgeAmount
  · rw [if_pos h4] at h; exact Except.noConfusion h
  rw [if_neg h4] at h
  by_cases h5 : s.config.maxBridgeAmount < amount
  · rw [if_pos h5] at h; exact Except.noConfusion h
  rw [if_neg h5] at h
  by_cases h6 : UINT256 ≤ amount * s.config.feeBasisPoints
  · rw [if_pos h6] at h; exact Except.noConfusion h
  rw [if_neg h6] at h
  by_cases h7 : amount < amount * s.config.feeBasisPoints / 10000
  · rw [if_pos h7] at h; exact Except.noConfusion h
  rw [if_neg h7] at h
  by_cases h8 : token = 0 ∧ msgValue ≠ amount
  · rw [if_pos h8] at h; exact Except.noConfusion h
  rw [if_neg h8] at h
  by_cases h9 : token ≠ 0 ∧ pullOk = false
  · rw [if_pos h9] at h; exact Except.noConfusion h
  rw [if_neg h9] at h
  by_cases h10 : UINT256 ≤ s.collectedFees + amount * s.config.feeBasisPoints / 10000
  · rw [if_pos h10] at h; exact Except.noConfusion h
  rw [if_neg h10] at h
  simp only [Except.ok.injEq, Prod.mk.injEq] at h
  obtain ⟨hs, hevs⟩ := h
  subst hs
  refine ⟨by simpa using h1, by simpa using h2, h3, by omega, by omega, by omega,
    rfl, rfl, by dsimp only; rw [store_same], hevs.symm, rfl, rfl, rfl⟩

/-- Characterization of a successful `confirmTransfer` call in the
`src/unnamed/part_005` variant: at the threshold read from the current
config the status becomes `Confirmed`, never `Completed`, and the only
event is the confirmation event. -/
theorem confirmTransfer_ok_specB {s s1 : State} {sender : Nat} {id : TransferId}
    {evs : List Event}
    (h : confirmTransfer s sender id = .ok (s1, evs)) :
    s.relayers sender = true ∧
    s.paused = false ∧
    (s.transfers id).sender ≠ 0 ∧
    (s.transfers id).status = .pending ∧
    s.relayerConfirmations id sender = false ∧
    (s1.transfers id).confirmations = (s.transfers id).confirmations + 1 ∧
    (s1.transfers id).status =
      (if s.config.relayerThreshold ≤ (s.transfers id).confirmations + 1 then
        TransferStatus.confirmed else TransferStatus.pending) ∧
    (s1.transfers id).status ≠ TransferStatus.completed ∧
    evs = [Event.bridgeConfirmed id sender ((s.transfers id).confirmations + 1)] ∧
    s1.config = s.config ∧
    s1.transferNonce = s.transferNonce ∧
    s1.relayerConfirmations = store2 s.relayerConfirmations id sender true ∧
    s1 = { s with
            transfers := store s.transfers id
              { s.transfers id with
                  confirmations := (s.transfers id).confirmations + 1
                  status :=
                    if decide (s.config.relayerThreshold ≤
                        (s.transfers id).confirmations + 1) = true then
                      TransferStatus.confirmed
                    else TransferStatus.pending }
            relayerConfirmations := store2 s.relayerConfirmations id sender true } := by
  simp only [confirmTransfer] at h
  by_cases hrole : (!s.relayers sender) = true
  · rw [if_pos hrole] at h; exact Except.noConfusion h
  rw [if_neg hrole] at h
  by_cases hpause : s.paused = true
  · rw [if_pos hpause] at h; exact Except.noConfusion h
  rw [if_neg hpause] at h
  by_cases hsender : (s.transfers id).sender = 0
  · rw [if_pos hsender] at h; exact Except.noConfusion h
  rw [if_neg hsender] at h
  by_cases hstatus : (s.transfers id).status ≠ TransferStatus.pending
  · rw [if_pos hstatus] at h; exact Except.noConfusion h
  rw [if_neg hstatus] at h
  by_cases hflag : s.relayerConfirmations id sender = true
  · rw [if_pos hflag] at h; exact Except.noConfusion h
  rw [if_neg hflag] at h
  simp only [Except.ok.injEq, Prod.mk.injEq] at h
  obtain ⟨hs, hevs⟩ := h
  subst hs
  subst hevs
  refine ⟨by simpa using hrole, by simpa using hpause, hsender,
    by simpa using hstatus, by simpa using hflag,
    by dsimp only; rw [store_same], ?_, ?_, rfl, rfl, rfl, rfl, rfl⟩ <;>
    (dsimp only
     rw [store_same]
     by_cases hdone : s.config.relayerThreshold ≤ (s.transfers id).confirmations + 1 <;>
       simp [hdone])

/-- Characterization of a successful `completeTransfer` call. -/
theorem completeTransfer_ok_spec {s s1 : State} {sender : Nat} {id : TransferId}
    {tonTxHash : Nat} {evs : List Event}
    (h : completeTransfer s sender id tonTxHash = .ok (s1, evs)) :
    s.operators sender = true ∧
    (s.transfers id).status = .confirmed ∧
    (s1.transfers id).status = .completed ∧
    (s1.transfers id).confirmations = (s.transfers id).confirmations ∧
    s1.transferNonce = s.transferNonce ∧
    s1.relayerConfirmations = s.relayerConfirmations ∧
    evs = [Event.bridgeCompleted id tonTxHash] ∧
    s1 = { s with
            transfers := store s.transfers id
              { s.transfers id with
                  tonTxHash := tonTxHash
                  status := TransferStatus.completed } } := by
  simp only [completeTransfer] at h
  by_cases hrole : (!s.operators sender) = true
  · rw [if_pos hrole] at h; exact Except.noConfusion h
  rw [if_neg hrole] at h
  by_cases hstatus : (s.transfers id).status ≠ TransferStatus.confirmed
  · rw [if_pos hstatus] at h; exact Except.noConfusion h
  rw [if_neg hstatus] at h
  simp only [Except.ok.injEq, Prod.mk.injEq] at h
  obtain ⟨hs, hevs⟩ := h
  subst hs
  refine ⟨by simpa using hrole, by simpa using hstatus, ?_, ?_, rfl, rfl, hevs.symm, rfl⟩ <;>
    (dsimp only; rw [store_same])

/-- A successful `unlockTokens` call leaves the entire contract storage
unchanged: the only effects are the outgoing value transfer and the
`TokenUnlocked` event.  In particular the derived replay-guard id is
never persisted. -/
theorem unlockTokens_ok_state {s s1 : State} {sender recipient token amount tonTxHash : Nat}
    {payOk : Bool} {evs : List Event}
    (h : unlockTokens s sender recipient token amount tonTxHash payOk = .ok (s1, evs)) :
    s1 = s ∧
    evs = [Event.payout recipient token amount,
           Event.tokenUnlocked (TransferId.unlockId tonTxHash recipient token amount)
             recipient token amount] := by
  simp only [unlockTokens] at h
  by_cases hrole : (!s.relayers sender) = true
  · rw [if_pos hrole] at h; exact Except.noConfusion h
  rw [if_neg hrole] at h
  by_cases hpause : s.paused = true
  · rw [if_pos hpause] at h; exact Except.noConfusion h
  rw [if_neg hpause] at h
  by_cases hrec : recipient = 0
  · rw [if_pos hrec] at h; exact Except.noConfusion h
  rw [if_neg hrec] at h
  by_cases hsup : (!s.supportedTokens token) = true
  · rw [if_pos hsup] at h; exact Except.noConfusion h
  rw [if_neg hsup] at h
  by_cases hguard : ¬ ((s.transfers (TransferId.unlockId tonTxHash recipient token amount)).status
      = TransferStatus.pending ∨
      (s.transfers (TransferId.unlockId tonTxHash recipient token amount)).sender = 0)
  · rw [if_pos hguard] at h; exact Except.noConfusion h
  rw [if_neg hguard] at h
  by_cases hpay : (!payOk) = true
  · rw [if_pos hpay] at h; exact Except.noConfusion h
  rw [if_neg hpay] at h
  simp only [Except.ok.injEq, Prod.mk.injEq] at h
  obtain ⟨hs, hevs⟩ := h
  exact ⟨hs.symm, hevs.symm⟩

theorem run_ok_nonceB {s s1 : State} {op : Op} {evs : List Event}
    (h : run s op = .ok (s1, evs)) : s.transferNonce ≤ s1.transferNonce := by
  cases op with
  | bridge sender msgValue timestamp tonRecipient token amount pullOk =>
      simp only [run] at h
      have hspec := bridgeToTON_ok_specB h
      omega
  | confirm sender id =>
      simp only [run] at h
      have hspec := confirmTransfer_ok_specB h
      omega
  | complete sender id tonTxHash =>
      simp only [run] at h
      have hspec := completeTransfer_ok_spec h
      omega
  | unlock sender recipient token amount tonTxHash payOk =>
      simp only [run] at h
      obtain ⟨hs, hevs⟩ := unlockTokens_ok_state h
      subst hs
      exact Nat.le_refl _
  | update sender newConfig =>
      simp only [run, updateConfig] at h
      split_ifs at h
      simp only [Except.ok.injEq, Prod.mk.injEq] at h
      obtain ⟨hs, hevs⟩ := h
      subst hs
      exact Nat.le_refl _
  | setToken sender token supported =>
      simp only [run, setSupportedToken] at h
      split_ifs at h
      simp only [Except.ok.injEq, Prod.mk.injEq] at h
      obtain ⟨hs, hevs⟩ := h
      subst hs
      exact Nat.le_refl _
  | withdraw sender payOk =>
      simp only [run, withdrawFees] at h
      split_ifs at h
      simp only [Except.ok.injEq, Prod.mk.injEq] at h
      obtain ⟨hs, hevs⟩ := h
      subst hs
      exact Nat.le_refl _
  | doPause sender =>
      simp only [run, pause] at h
      split_ifs at h
      simp only [Except.ok.injEq, Prod.mk.injEq] at h
      obtain ⟨hs, hevs⟩ := h
      subst hs
      exact Nat.le_refl _
  | doUnpause sender =>
      simp only [run, unpause] at h
      split_ifs at h
      simp only [Except.ok.injEq, Prod.mk.injEq] at h
      obtain ⟨hs, hevs⟩ := h
      subst hs
      exact Nat.le_refl _
  | grantRel sender account =>
      simp only [run, grantRelayer] at h
      split_ifs at h
      simp only [Except.ok.injEq, Prod.mk.injEq] at h
      obtain ⟨hs, hevs⟩ := h
      subst hs
      exact Nat.le_refl _
  | revokeRel sender account =>
      simp only [run, revokeRelayer] at h
      split_ifs at h
      simp only [Except.ok.injEq, Prod.mk.injEq] at h
      obtain ⟨hs, hevs⟩ := h
      subst hs
      exact Nat.le_refl _

theorem step_nonce_monoB (s : State) (op : Op) :
    s.transferNonce ≤ (step s op).transferNonce := by
  unfold step
  cases h : run s op with
  | ok p =>
      obtain ⟨s1, evs⟩ := p
      exact run_ok_nonceB h
  | error e => exact Nat.le_refl _

theorem reachFrom_nonce_monoB {s t : State} (h : ReachFrom s t) :
    s.transferNonce ≤ t.transferNonce := by
  induction h with
  | refl => exact Nat.le_refl _
  | step h op ih => exact Nat.le_trans ih (step_nonce_monoB _ op)

end BridgeB

namespace BridgeB

open Bridge

theorem inv_initB (admin feeCollector : Nat) (cfg : BridgeConfig) :
    Inv (initState admin feeCollector cfg) := by
  unfold Inv initState
  refine ⟨fun sd rc tk am nn ts _ => ⟨rfl, fun r => rfl⟩,
    fun hh rp tk am => ⟨rfl, fun r => rfl⟩, fun id => ?_⟩
  have hset : attSetOf (fun _ _ => false) id = (∅ : Set Nat) := by
    ext r; simp [attSetOf]
  dsimp only
  rw [hset]
  exact ⟨Set.finite_empty, by simp [emptyTransfer]⟩

theorem inv_congr {s s1 : State}
    (ht : s1.transfers = s.transfers)
    (hc : s1.relayerConfirmations = s.relayerConfirmations)
    (hn : s.transferNonce ≤ s1.transferNonce)
    (hInv : Inv s) : Inv s1 := by
  obtain ⟨hFreshB, hUnlock, hCount⟩ := hInv
  refine ⟨fun sd rc tk am nn ts hid => ?_, fun hh rp tk am => ?_, fun id => ?_⟩
  · simp only [ht, hc]
    exact hFreshB sd rc tk am nn ts (Nat.le_trans hn hid)
  · simp only [ht, hc]
    exact hUnlock hh rp tk am
  · simp only [attSetOf, ht, hc]
    exact hCount id

theorem inv_run_okB {s s1 : State} {op : Op} {evs : List Event}
    (hInv : Inv s) (h : run s op = .ok (s1, evs)) : Inv s1 := by
  obtain ⟨hFreshB, hUnlock, hCount⟩ := hInv
  cases op with
  | bridge sender msgValue timestamp tonRecipient token amount pullOk =>
      simp only [run] at h
      obtain ⟨hp, hsup, hlen, hmin, hmax, hfeele, hnonce, hfees, hrec, hevs,
        hcfg, hrcEq, hfull⟩ := bridgeToTON_ok_specB h
      subst hfull
      unfold Inv
      dsimp only
      refine ⟨fun sd rc tk am nn ts hid => ?_, fun hh rp tk am => ?_, fun id => ?_⟩
      · have hne : TransferId.bridgeId sd rc tk am nn ts
            ≠ producedId s sender tonRecipient token amount timestamp := by
          intro he
          simp only [producedId, TransferId.bridgeId.injEq] at he
          omega
        rw [store_other _ _ _ _ hne]
        exact hFreshB sd rc tk am nn ts (by omega)
      · have hne : TransferId.unlockId hh rp tk am
            ≠ producedId s sender tonRecipient token amount timestamp := by
          intro he
          simp only [producedId] at he
          exact TransferId.noConfusion he
        rw [store_other _ _ _ _ hne]
        exact hUnlock hh rp tk am
      · by_cases hcase : id = producedId s sender tonRecipient token amount timestamp
        · subst hcase
          have hfr := hFreshB sender tonRecipient token amount s.transferNonce timestamp
            (Nat.le_refl _)
          have hset : attSetOf s.relayerConfirmations
              (producedId s sender tonRecipient token amount timestamp) = (∅ : Set Nat) := by
            ext r
            simp only [attSetOf, Set.mem_setOf_eq]
            simpa using hfr.2 r
          rw [hset, store_same]
          exact ⟨Set.finite_empty, by simp⟩
        · rw [store_other _ _ _ _ hcase]
          exact hCount id
  | confirm sender id0 =>
      simp only [run] at h
      obtain ⟨hrole, hp, hsender, hstatus, hflag, hcnt, hst, hnc, hevs, hcfg,
        hnonce, hrc, hfull⟩ := confirmTransfer_ok_specB h
      subst hfull
      unfold Inv
      dsimp only
      refine ⟨fun sd rc tk am nn ts hid => ?_, fun hh rp tk am => ?_, fun id => ?_⟩
      · have hfr := hFreshB sd rc tk am nn ts hid
        have hne : TransferId.bridgeId sd rc tk am nn ts ≠ id0 := by
          intro he
          rw [← he] at hsender
          rw [hfr.1] at hsender
          exact hsender rfl
        refine ⟨by rw [store_other _ _ _ _ hne]; exact hfr.1, fun r => ?_⟩
        rw [store2_other _ _ _ _ _ _ (fun hand => hne hand.1)]
        exact hfr.2 r
      · have hfr := hUnlock hh rp tk am
        have hne : TransferId.unlockId hh rp tk am ≠ id0 := by
          intro he
          rw [← he] at hsender
          rw [hfr.1] at hsender
          exact hsender rfl
        refine ⟨by rw [store_other _ _ _ _ hne]; exact hfr.1, fun r => ?_⟩
        rw [store2_other _ _ _ _ _ _ (fun hand => hne hand.1)]
        exact hfr.2 r
      · by_cases hcase : id = id0
        · subst hcase
          have hsetEq : attSetOf (store2 s.relayerConfirmations id sender true) id
              = insert sender (attSetOf s.relayerConfirmations id) := by
            ext r
            by_cases hr : r = sender
            · subst hr; simp [attSetOf, store2]
            · simp [attSetOf, store2, hr]
          have hnotmem : sender ∉ attSetOf s.relayerConfirmations id := by
            simp only [attSetOf, Set.mem_setOf_eq]
            simp [hflag]
          have hfin := (hCount id).1
          rw [hsetEq, store_same]
          refine ⟨hfin.insert sender, ?_⟩
          rw [Set.ncard_insert_of_not_mem hnotmem hfin]
          dsimp only
          rw [(hCount id).2]
        · have hsetEq : attSetOf (store2 s.relayerConfirmations id0 sender true) id
              = attSetOf s.relayerConfirmations id := by
            ext r; simp [attSetOf, store2, hcase]
          rw [hsetEq, store_other _ _ _ _ hcase]
          exact hCount id
  | complete sender id0 tonTxHash =>
      simp only [run] at h
      obtain ⟨hrole, hstatus, hst1, hcnt1, hnonce, hrc, hevs, hfull⟩ :=
        completeTransfer_ok_spec h
      subst hfull
      unfold Inv
      dsimp only
      refine ⟨fun sd rc tk am nn ts hid => ?_, fun hh rp tk am => ?_, fun id => ?_⟩
      · have hfr := hFreshB sd rc tk am nn ts hid
        have hne : TransferId.bridgeId sd rc tk am nn ts ≠ id0 := by
          intro he
          rw [← he, hfr.1] at hstatus
          exact TransferStatus.noConfusion hstatus
        exact ⟨by rw [store_other _ _ _ _ hne]; exact hfr.1, hfr.2⟩
      · have hfr := hUnlock hh rp tk am
        have hne : TransferId.unlockId hh rp tk am ≠ id0 := by
          intro he
          rw [← he, hfr.1] at hstatus
          exact TransferStatus.noConfusion hstatus
        exact ⟨by rw [store_other _ _ _ _ hne]; exact hfr.1, hfr.2⟩
      · by_cases hcase : id = id0
        · subst hcase
          rw [store_same]
          exact ⟨(hCount id).1, (hCount id).2⟩
        · rw [store_other _ _ _ _ hcase]
          exact hCount id
  | unlock sender recipient token amount tonTxHash payOk =>
      simp only [run] at h
      obtain ⟨hs, hevs⟩ := unlockTokens_ok_state h
      subst hs
      exact ⟨hFreshB, hUnlock, hCount⟩
  | update sender newConfig =>
      simp only [run, updateConfig] at h
      split_ifs at h
      simp only [Except.ok.injEq, Prod.mk.injEq] at h
      obtain ⟨hs, hevs⟩ := h
      subst hs
      exact inv_congr rfl rfl (Nat.le_refl _) ⟨hFreshB, hUnlock, hCount⟩
  | setToken sender token supported =>
      simp only [run, setSupportedToken] at h
      split_ifs at h
      simp only [Except.ok.injEq, Prod.mk.injEq] at h
      obtain ⟨hs, hevs⟩ := h
      subst hs
      exact inv_congr rfl rfl (Nat.le_refl _) ⟨hFreshB, hUnlock, hCount⟩
  | withdraw sender payOk =>
      simp only [run, withdrawFees] at h
      split_ifs at h
      simp only [Except.ok.injEq, Prod.mk.injEq] at h
      obtain ⟨hs, hevs⟩ := h
      subst hs
      exact inv_congr rfl rfl (Nat.le_refl _) ⟨hFreshB, hUnlock, hCount⟩
  | doPause sender =>
      simp only [run, pause] at h
      split_ifs at h
      simp only [Except.ok.injEq, Prod.mk.injEq] at h
      obtain ⟨hs, hevs⟩ := h
      subst hs
      exact inv_congr rfl rfl (Nat.le_refl _) ⟨hFreshB, hUnlock, hCount⟩
  | doUnpause sender =>
      simp only [run, unpause] at h
      split_ifs at h
      simp only [Except.ok.injEq, Prod.mk.injEq] at h
      obtain ⟨hs, hevs⟩ := h
      subst hs
      exact inv_congr rfl rfl (Nat.le_refl _) ⟨hFreshB, hUnlock, hCount⟩
  | grantRel sender account =>
      simp only [run, grantRelayer] at h
      split_ifs at h
      simp only [Except.ok.injEq, Prod.mk.injEq] at h
      obtain ⟨hs, hevs⟩ := h
      subst hs
      exact inv_congr rfl rfl (Nat.le_refl _) ⟨hFreshB, hUnlock, hCount⟩
  | revokeRel sender account =>
      simp only [run, revokeRelayer] at h
      split_ifs at h
      simp only [Except.ok.injEq, Prod.mk.injEq] at h
      obtain ⟨hs, hevs⟩ := h
      subst hs
      exact inv_congr rfl rfl (Nat.le_refl _) ⟨hFreshB, hUnlock, hCount⟩

theorem inv_stepB (s : State) (op : Op) (hInv : Inv s) : Inv (step s op) := by
  unfold step
  cases h : run s op with
  | ok p =>
      obtain ⟨s1, evs⟩ := p
      exact inv_run_okB hInv h
  | error e => exact hInv

theorem inv_reachableB {s : State} (h : Reachable s) : Inv s := by
  induction h with
  | init admin feeCollector cfg h1 h2 => exact inv_initB admin feeCollector cfg
  | step h op ih => exact inv_stepB _ op ih

end BridgeB

namespace Relayer

/-- Closed form of the `sendNativeTon` retry loop: attempts 1, 2, 3 are
tried in order, the first success returns, and after the third failure
the function gives up. -/
theorem sendNativeTon_eq (attemptOk : Nat → Bool) :
    sendNativeTon attemptOk =
      if attemptOk 1 then (true, 1)
      else if attemptOk 2 then (true, 2)
      else if attemptOk 3 then (true, 3)
      else (false, 3) := by
  simp [sendNativeTon, sendNativeTonAux, maxRetries]

/-- The retry loop never makes more than `maxRetries` attempts. -/
theorem sendNativeTon_attempts_le (attemptOk : Nat → Bool) :
    (sendNativeTon attemptOk).2 ≤ maxRetries := by
  rw [sendNativeTon_eq]
  split_ifs <;> simp [maxRetries]

/-- The send succeeds exactly when one of the three attempts succeeds. -/
theorem sendNativeTon_success_iff (attemptOk : Nat → Bool) :
    (sendNativeTon attemptOk).1 = true ↔
      attemptOk 1 = true ∨ attemptOk 2 = true ∨ attemptOk 3 = true := by
  rw [sendNativeTon_eq]
  split_ifs <;> simp_all

/-- Counting hits of one key among the outputs of a `filterMap` whose
outputs are always the key of their input, when at most one element of
the list carries the key of `e`. -/
theorem count_filterMap_unique {α β : Type} [DecidableEq α] [DecidableEq β]
    (f : α → Option β) (key : α → β)
    (hf : ∀ a b, f a = some b → b = key a) :
    ∀ (l : List α) (e : α), (∀ a ∈ l, key a = key e → a = e) →
      (l.filterMap f).count (key e) = if f e = some (key e) then l.count e else 0 := by
  intro l
  induction l with
  | nil =>
      intro e _
      simp
  | cons a l ih =>
      intro e huniq
      have huniq2 : ∀ x ∈ l, key x = key e → x = e :=
        fun x hx => huniq x (List.mem_cons_of_mem a hx)
      have ihe := ih e huniq2
      rw [List.filterMap_cons]
      cases hfa : f a with
      | none =>
          by_cases hae : a = e
          · subst hae
            rw [hfa] at ihe
            simp only [reduceCtorEq, if_false] at ihe
            rw [hfa]
            simpa using ihe
          · rw [List.count_cons_of_ne (fun he => hae he.symm) l]
            exact ihe
      | some b =>
          have hb : b = key a := hf a b hfa
          subst hb
          by_cases hk : key a = key e
          · have hae : a = e := huniq a (List.mem_cons_self a l) hk
            subst hae
            rw [hfa] at ihe
            simp only [if_pos rfl] at ihe
            rw [hfa, hk, List.count_cons_self, ihe]
            simp
          · have hae : a ≠ e := fun he => hk (by rw [he])
            rw [List.count_cons_of_ne (fun he => hk he.symm) (l.filterMap f),
                List.count_cons_of_ne (fun he => hae he.symm) l]
            exact ihe

end Relayer

/-- C10: for every `unlockTokens` call by an authorized relayer with a
supported token and non-zero recipient (and the replay-guard condition of
the code holding, which it always does since nothing is ever recorded),
the operation succeeds for every amount and under every config — no
minAmount/maxAmount bound is consulted and no attestation quorum is
required — and it pays the recipient exactly the requested amount with no
fee deducted: the only outgoing value transfer is
`(recipient, token, amount)` and the whole contract storage (including
`collectedFees`) is unchanged. -/
theorem C10_unlock_pays_exact_amount_no_policy
    (s : BridgeB.State) (sender recipient token amount tonTxHash : Nat)
    (hrel : s.relayers sender = true) (hp : s.paused = false)
    (hrec : recipient ≠ 0) (hsup : s.supportedTokens token = true)
    (hguard : (s.transfers (.unlockId tonTxHash recipient token amount)).status
        = BridgeB.TransferStatus.pending ∨
      (s.transfers (.unlockId tonTxHash recipient token amount)).sender = 0) :
    BridgeB.unlockTokens s sender recipient token amount tonTxHash true =
      .ok (s, [.payout recipient token amount,
               .tokenUnlocked (.unlockId tonTxHash recipient token amount)
                 recipient token amount]) ∧
    BridgeB.payoutsIn
        (BridgeB.emitted s (.unlock sender recipient token amount tonTxHash true))
      = [(recipient, token, amount)] ∧
    BridgeB.step s (.unlock sender recipient token amount tonTxHash true) = s := by
  have hmain : BridgeB.unlockTokens s sender recipient token amount tonTxHash true =
      .ok (s, [.payout recipient token amount,
               .tokenUnlocked (.unlockId tonTxHash recipient token amount)
                 recipient token amount]) := by
    unfold BridgeB.unlockTokens
    simp [hrel, hp, hrec, hsup, hguard]
  refine ⟨hmain, ?_, ?_⟩
  · simp [BridgeB.emitted, BridgeB.run, hmain, BridgeB.payoutsIn]
  · simp [BridgeB.step, BridgeB.run, hmain]

/-- Witness for C10 at a concrete reachable state: relayer 9 releases 50
native units to recipient 3 against TON transaction 77. -/
theorem C10_unlock_pays_exact_amount_no_policy_witness :
    BridgeB.unlockTokens exBu 9 3 0 50 77 true =
      .ok (exBu, [.payout 3 0 50,
                  .tokenUnlocked (.unlockId 77 3 0 50) 3 0 50]) ∧
    BridgeB.payoutsIn (BridgeB.emitted exBu (.unlock 9 3 0 50 77 true))
      = [(3, 0, 50)] ∧
    BridgeB.step exBu (.unlock 9 3 0 50 77 true) = exBu :=
  C10_unlock_pays_exact_amount_no_policy exBu 9 3 0 50 77
    (by decide) (by decide) (by decide) (by decide) (by decide)

/-- C1: the reverse-direction replay guard does not work.  `unlockTokens`
derives its id from `(tonTxHash, recipient, token, amount)` and checks
`transfers[transferId]`, but never writes that mapping after paying out:
at the concrete input (relayer 9, recipient 3, native token, amount 50,
tonTxHash 77) the first call pays out, and the identical second call
passes the guard again and pays out a second time. -/
theorem C1_unlock_double_payout :
    (BridgeB.unlockTokens exBu 9 3 0 50 77 true).isOk = true ∧
    BridgeB.payoutsIn (BridgeB.emitted exBu (.unlock 9 3 0 50 77 true))
      = [(3, 0, 50)] ∧
    (BridgeB.unlockTokens exBu1 9 3 0 50 77 true).isOk = true ∧
    BridgeB.payoutsIn (BridgeB.emitted exBu1 (.unlock 9 3 0 50 77 true))
      = [(3, 0, 50)] := by
  decide

/-- C5: for every accepted `bridgeToTON` request in the part_005 variant,
the persisted fee equals `floor(amount * feeBasisPoints / 10000)` under
the current config, the persisted and emitted net amount equals
`amount - fee` (so `fee + netAmount = amount` exactly in integer
arithmetic), and `collectedFees` grows by exactly `fee`. -/
theorem C5_request_fee_arithmetic
    (s : BridgeB.State) (sender msgValue ts : Nat) (rec : String)
    (token amount : Nat) (pullOk : Bool)
    (h : (BridgeB.bridgeToTON s sender msgValue ts rec token amount pullOk).isOk = true) :
    ((BridgeB.step s (.bridge sender msgValue ts rec token amount pullOk)).transfers
        (BridgeB.producedId s sender rec token amount ts)).fee
      = amount * s.config.feeBasisPoints / 10000 ∧
    ((BridgeB.step s (.bridge sender msgValue ts rec token amount pullOk)).transfers
        (BridgeB.producedId s sender rec token amount ts)).amount
      = amount - amount * s.config.feeBasisPoints / 10000 ∧
    amount * s.config.feeBasisPoints / 10000 +
      ((BridgeB.step s (.bridge sender msgValue ts rec token amount pullOk)).transfers
        (BridgeB.producedId s sender rec token amount ts)).amount = amount ∧
    (BridgeB.step s (.bridge sender msgValue ts rec token amount pullOk)).collectedFees
      = s.collectedFees + amount * s.config.feeBasisPoints / 10000 ∧
    BridgeB.Event.bridgeInitiated (BridgeB.producedId s sender rec token amount ts)
        sender rec token (amount - amount * s.config.feeBasisPoints / 10000)
        (amount * s.config.feeBasisPoints / 10000)
      ∈ BridgeB.emitted s (.bridge sender msgValue ts rec token amount pullOk) := by
  obtain ⟨⟨s1, evs⟩, heq⟩ := Bridge.isOk_exists h
  have hstep : BridgeB.step s (.bridge sender msgValue ts rec token amount pullOk) = s1 :=
    @BridgeB.step_of_run_okB s s1 (.bridge sender msgValue ts rec token amount pullOk) evs heq
  have hev : BridgeB.emitted s (.bridge sender msgValue ts rec token amount pullOk) = evs :=
    @BridgeB.emitted_of_run_okB s s1 (.bridge sender msgValue ts rec token amount pullOk) evs heq
  obtain ⟨hp, hsup, hlen, hmin, hmax, hfeele, hnonce, hfees, hrec2, hevs, hcfg, hrc, hfull⟩ :=
    BridgeB.bridgeToTON_ok_specB heq
  rw [hstep, hev, hevs, hrec2]
  refine ⟨rfl, rfl, ?_, hfees, by simp⟩
  show amount * s.config.feeBasisPoints / 10000 +
    (amount - amount * s.config.feeBasisPoints / 10000) = amount
  omega

/-- Witness for C5: user 5 bridges 10000 native units at 30 basis points
(fee 30, net 9970) in the concrete chain. -/
theorem C5_request_fee_arithmetic_witness :
    ((BridgeB.step exB1 (.bridge 5 10000 11 "EQx" 0 10000 true)).transfers
        (BridgeB.producedId exB1 5 "EQx" 0 10000 11)).fee
      = 10000 * exB1.config.feeBasisPoints / 10000 ∧
    ((BridgeB.step exB1 (.bridge 5 10000 11 "EQx" 0 10000 true)).transfers
        (BridgeB.producedId exB1 5 "EQx" 0 10000 11)).amount
      = 10000 - 10000 * exB1.config.feeBasisPoints / 10000 ∧
    10000 * exB1.config.feeBasisPoints / 10000 +
      ((BridgeB.step exB1 (.bridge 5 10000 11 "EQx" 0 10000 true)).transfers
        (BridgeB.producedId exB1 5 "EQx" 0 10000 11)).amount = 10000 ∧
    (BridgeB.step exB1 (.bridge 5 10000 11 "EQx" 0 10000 true)).collectedFees
      = exB1.collectedFees + 10000 * exB1.config.feeBasisPoints / 10000 ∧
    BridgeB.Event.bridgeInitiated (BridgeB.producedId exB1 5 "EQx" 0 10000 11)
        5 "EQx" 0 (10000 - 10000 * exB1.config.feeBasisPoints / 10000)
        (10000 * exB1.config.feeBasisPoints / 10000)
      ∈ BridgeB.emitted exB1 (.bridge 5 10000 11 "EQx" 0 10000 true) :=
  C5_request_fee_arithmetic exB1 5 10000 11 "EQx" 0 10000 true (by decide)

/-- C4: transfer ids are pairwise distinct across any two successful
`bridgeToTON` calls on one ledger, in both contract variants, because
each successful call consumes a strictly larger ledger-owned nonce that
is part of the hashed id preimage (keccak256 modelled as injective, the
id being its preimage). -/
theorem C4_produced_ids_distinct :
    (∀ (s s2 : BridgeA.State) (sender msgValue ts : Nat) (rec : String)
        (token amount : Nat) (pullOk : Bool)
        (sender2 msgValue2 ts2 : Nat) (rec2 : String) (token2 amount2 : Nat)
        (pullOk2 : Bool),
        (BridgeA.bridgeToTON s sender msgValue ts rec token amount pullOk).isOk = true →
        BridgeA.ReachFrom
          (BridgeA.step s (.bridge sender msgValue ts rec token amount pullOk)) s2 →
        (BridgeA.bridgeToTON s2 sender2 msgValue2 ts2 rec2 token2 amount2 pullOk2).isOk
          = true →
        (BridgeA.producedId s sender rec token amount).nonce
            < (BridgeA.producedId s2 sender2 rec2 token2 amount2).nonce ∧
        BridgeA.producedId s sender rec token amount
          ≠ BridgeA.producedId s2 sender2 rec2 token2 amount2) ∧
    (∀ (s s2 : BridgeB.State) (sender msgValue ts : Nat) (rec : String)
        (token amount : Nat) (pullOk : Bool)
        (sender2 msgValue2 ts2 : Nat) (rec2 : String) (token2 amount2 : Nat)
        (pullOk2 : Bool),
        (BridgeB.bridgeToTON s sender msgValue ts rec token amount pullOk).isOk = true →
        BridgeB.ReachFrom
          (BridgeB.step s (.bridge sender msgValue ts rec token amount pullOk)) s2 →
        (BridgeB.bridgeToTON s2 sender2 msgValue2 ts2 rec2 token2 amount2 pullOk2).isOk
          = true →
        BridgeB.producedId s sender rec token amount ts
          ≠ BridgeB.producedId s2 sender2 rec2 token2 amount2 ts2) := by
  constructor
  · intro s s2 sender msgValue ts rec token amount pullOk
      sender2 msgValue2 ts2 rec2 token2 amount2 pullOk2 h1 hreach h2
    obtain ⟨⟨s1, evs⟩, heq⟩ := Bridge.isOk_exists h1
    have hstep : BridgeA.step s (.bridge sender msgValue ts rec token amount pullOk) = s1 :=
      @BridgeA.step_of_run_ok s s1 (.bridge sender msgValue ts rec token amount pullOk) evs heq
    obtain ⟨_, _, _, _, _, hnonce, _, _⟩ := BridgeA.bridgeToTON_ok_spec heq
    rw [hstep] at hreach
    have hmono := BridgeA.reachFrom_nonce_mono hreach
    have hlt : s.transferNonce < s2.transferNonce := by omega
    refine ⟨by simpa [BridgeA.producedId] using hlt, fun he => ?_⟩
    have hn : (BridgeA.producedId s sender rec token amount).nonce
        = (BridgeA.producedId s2 sender2 rec2 token2 amount2).nonce := by rw [he]
    simp only [BridgeA.producedId] at hn
    omega
  · intro s s2 sender msgValue ts rec token amount pullOk
      sender2 msgValue2 ts2 rec2 token2 amount2 pullOk2 h1 hreach h2
    obtain ⟨⟨s1, evs⟩, heq⟩ := Bridge.isOk_exists h1
    have hstep : BridgeB.step s (.bridge sender msgValue ts rec token amount pullOk) = s1 :=
      @BridgeB.step_of_run_okB s s1 (.bridge sender msgValue ts rec token amount pullOk) evs heq
    obtain ⟨_, _, _, _, _, _, hnonce, _⟩ := BridgeB.bridgeToTON_ok_specB heq
    rw [hstep] at hreach
    have hmono := BridgeB.reachFrom_nonce_monoB hreach
    have hlt : s.transferNonce < s2.transferNonce := by omega
    intro he
    have hn : s.transferNonce = s2.transferNonce := by
      have := congrArg (fun id => match id with
        | BridgeB.TransferId.bridgeId _ _ _ _ nn _ => nn
        | BridgeB.TransferId.unlockId _ _ _ _ => 0) he
      simpa [BridgeB.producedId] using this
    omega

/-- Witness for C4: the same request submitted twice in a row from the
initial states of both variants produces two distinct ids. -/
theorem C4_produced_ids_distinct_witness :
    ((BridgeA.producedId exA0 5 "EQx" 0 100).nonce
        < (BridgeA.producedId (BridgeA.step exA0 (.bridge 5 100 11 "EQx" 0 100 true))
            5 "EQx" 0 100).nonce ∧
      BridgeA.producedId exA0 5 "EQx" 0 100
        ≠ BridgeA.producedId (BridgeA.step exA0 (.bridge 5 100 11 "EQx" 0 100 true))
            5 "EQx" 0 100) ∧
    BridgeB.producedId exB0 5 "EQx" 0 10000 11
      ≠ BridgeB.producedId (BridgeB.step exB0 (.bridge 5 10000 11 "EQx" 0 10000 true))
          5 "EQx" 0 10000 11 :=
  ⟨C4_produced_ids_distinct.1 exA0
      (BridgeA.step exA0 (.bridge 5 100 11 "EQx" 0 100 true))
      5 100 11 "EQx" 0 100 true 5 100 11 "EQx" 0 100 true
      (by decide) (BridgeA.ReachFrom.refl _) (by decide),
    C4_produced_ids_distinct.2 exB0
      (BridgeB.step exB0 (.bridge 5 10000 11 "EQx" 0 10000 true))
      5 10000 11 "EQx" 0 10000 true 5 10000 11 "EQx" 0 10000 true
      (by decide) (BridgeB.ReachFrom.refl _) (by decide)⟩

theorem exA0_reachable : BridgeA.Reachable exA0 :=
  BridgeA.Reachable.init 1 exCfgA (by decide)

theorem exA2_reachable : BridgeA.Reachable exA2 :=
  BridgeA.Reachable.step (BridgeA.Reachable.step exA0_reachable (.grantRel 1 7))
    (.bridge 5 100 11 "EQx" 0 100 true)

theorem exA2c_reachable : BridgeA.Reachable exA2c :=
  BridgeA.Reachable.step exA2_reachable (.confirm 7 exIdA)

theorem exAA3_reachable : BridgeA.Reachable exAA3 :=
  BridgeA.Reachable.step
    (BridgeA.Reachable.step
      (BridgeA.Reachable.step (BridgeA.Reachable.init 1 exCfgA1 (by decide))
        (.grantRel 1 8))
      (.bridge 5 100 11 "EQx" 0 100 true))
    (.confirm 8 exIdA)

theorem exB2_reachable : BridgeB.Reachable exB2 :=
  BridgeB.Reachable.step
    (BridgeB.Reachable.step (BridgeB.Reachable.init 1 2 exCfgB (by decide) (by decide))
      (.grantRel 1 7))
    (.bridge 5 10000 11 "EQx" 0 10000 true)

theorem exBt3_reachable : BridgeB.Reachable exBt3 :=
  BridgeB.Reachable.step
    (BridgeB.Reachable.step
      (BridgeB.Reachable.step (BridgeB.Reachable.init 1 2 exCfgB2 (by decide) (by decide))
        (.grantRel 1 7))
      (.bridge 5 10000 11 "EQx" 0 10000 true))
    (.confirm 7 exIdB)

/-- C3: in both contract variants, a second attestation by the same
relayer identity on the same id is rejected — with the dedicated
`AlreadyConfirmed` error whenever it is the duplicate-attestation guard
that fires (the transfer exists, is still open, and the caller holds the
relayer role) — and the whole transaction rolls back, leaving
`confirmationCount` (and everything else) unchanged; and in every
reachable ledger state, each transfer's confirmation counter equals the
number of distinct relayer identities whose attestation flag for that id
is set. -/
theorem C3_attest_idempotent_and_count_invariant :
    (∀ (s : BridgeA.State) (sender : Nat) (id : BridgeA.TransferId),
        s.hasConfirmed id sender = true →
        BridgeA.step s (.confirm sender id) = s ∧
        (s.relayers sender = true → (s.transfers id).timestamp ≠ 0 →
          (s.transfers id).completed = false →
          BridgeA.confirmTransfer s sender id = .error .alreadyConfirmed)) ∧
    (∀ s : BridgeA.State, BridgeA.Reachable s → ∀ id : BridgeA.TransferId,
        (s.transfers id).confirmations = (BridgeA.attesters s id).ncard) ∧
    (∀ (s : BridgeB.State) (sender : Nat) (id : BridgeB.TransferId),
        s.relayerConfirmations id sender = true →
        BridgeB.step s (.confirm sender id) = s ∧
        (s.relayers sender = true → s.paused = false →
          (s.transfers id).sender ≠ 0 →
          (s.transfers id).status = BridgeB.TransferStatus.pending →
          BridgeB.confirmTransfer s sender id = .error .alreadyConfirmed)) ∧
    (∀ s : BridgeB.State, BridgeB.Reachable s → ∀ id : BridgeB.TransferId,
        (s.transfers id).confirmations = (BridgeB.attesters s id).ncard) := by
  refine ⟨?_, ?_, ?_, ?_⟩
  · intro s sender id hflag
    constructor
    · simp only [BridgeA.step, BridgeA.run, BridgeA.confirmTransfer]
      split_ifs with h1 h2 h3 h4 h5 <;> first | rfl | exact absurd hflag h4
    · intro hrole hts hcomp
      simp [BridgeA.confirmTransfer, hrole, hts, hcomp, hflag]
  · intro s hreach id
    exact ((BridgeA.inv_reachable hreach).2 id).2
  · intro s sender id hflag
    constructor
    · simp only [BridgeB.step, BridgeB.run, BridgeB.confirmTransfer]
      split_ifs with h1 h2 h3 h4 h5 h6 <;> first | rfl | exact absurd hflag h5
    · intro hrole hp hsender hstatus
      simp [BridgeB.confirmTransfer, hrole, hp, hsender, hstatus, hflag]
  · intro s hreach id
    exact ((BridgeB.inv_reachableB hreach).2.2 id).2

/-- Witness for C3: relayer 7 already attested in both concrete chains;
the duplicate call is rejected with `AlreadyConfirmed` and changes
nothing, and the counting invariant holds in those states. -/
theorem C3_attest_idempotent_and_count_invariant_witness :
    (BridgeA.step exA2c (.confirm 7 exIdA) = exA2c ∧
      (exA2c.relayers 7 = true → (exA2c.transfers exIdA).timestamp ≠ 0 →
        (exA2c.transfers exIdA).completed = false →
        BridgeA.confirmTransfer exA2c 7 exIdA = .error .alreadyConfirmed)) ∧
    (∀ id : BridgeA.TransferId,
      (exA2c.transfers id).confirmations = (BridgeA.attesters exA2c id).ncard) ∧
    (BridgeB.step exBt3 (.confirm 7 exIdB) = exBt3 ∧
      (exBt3.relayers 7 = true → exBt3.paused = false →
        (exBt3.transfers exIdB).sender ≠ 0 →
        (exBt3.transfers exIdB).status = BridgeB.TransferStatus.pending →
        BridgeB.confirmTransfer exBt3 7 exIdB = .error .alreadyConfirmed)) ∧
    (∀ id : BridgeB.TransferId,
      (exBt3.transfers id).confirmations = (BridgeB.attesters exBt3 id).ncard) :=
  ⟨C3_attest_idempotent_and_count_invariant.1 exA2c 7 exIdA (by decide),
   C3_attest_idempotent_and_count_invariant.2.1 exA2c exA2c_reachable,
   C3_attest_idempotent_and_count_invariant.2.2.1 exBt3 7 exIdB (by decide),
   C3_attest_idempotent_and_count_invariant.2.2.2 exBt3 exBt3_reachable⟩

/-- C2 (amended): in the UUPS variant
(`src/contracts/polygon/bridge/PolygonBridge.sol`), a successful
attestation increments the counter and sets `completed` exactly when the
new count first reaches the `relayerThreshold` read from the config
current at that attestation, emitting `BridgeCompleted` exactly then;
in every reachable state a completed transfer stays completed under
every further operation, and no operation other than `confirmTransfer`
ever changes any transfer's completed flag.  In the part_005 variant the
attestation that reaches the threshold instead sets the status to
`Confirmed`, never `Completed`, and emits no completion event. -/
theorem C2_completion_at_threshold :
    (∀ (s : BridgeA.State) (sender : Nat) (id : BridgeA.TransferId),
        (BridgeA.confirmTransfer s sender id).isOk = true →
        (s.transfers id).completed = false ∧
        ((BridgeA.step s (.confirm sender id)).transfers id).confirmations
          = (s.transfers id).confirmations + 1 ∧
        (((BridgeA.step s (.confirm sender id)).transfers id).completed = true ↔
          s.config.relayerThreshold ≤ (s.transfers id).confirmations + 1) ∧
        (BridgeA.Event.bridgeCompleted id ∈ BridgeA.emitted s (.confirm sender id) ↔
          ((BridgeA.step s (.confirm sender id)).transfers id).completed = true)) ∧
    (∀ s : BridgeA.State, BridgeA.Reachable s →
      ∀ (id : BridgeA.TransferId) (op : BridgeA.Op),
        (s.transfers id).completed = true →
        ((BridgeA.step s op).transfers id).completed = true) ∧
    (∀ s : BridgeA.State, BridgeA.Reachable s →
      ∀ (id : BridgeA.TransferId) (op : BridgeA.Op),
        (∀ sender i, op ≠ BridgeA.Op.confirm sender i) →
        ((BridgeA.step s op).transfers id).completed = (s.transfers id).completed) ∧
    (∀ (s : BridgeB.State) (sender : Nat) (id : BridgeB.TransferId),
        (BridgeB.confirmTransfer s sender id).isOk = true →
        (((BridgeB.step s (.confirm sender id)).transfers id).status
            = BridgeB.TransferStatus.confirmed ↔
          s.config.relayerThreshold ≤ (s.transfers id).confirmations + 1) ∧
        ((BridgeB.step s (.confirm sender id)).transfers id).status
          ≠ BridgeB.TransferStatus.completed ∧
        ∀ hsh : Nat, BridgeB.Event.bridgeCompleted id hsh
          ∉ BridgeB.emitted s (.confirm sender id)) := by
  refine ⟨?_, ?_, ?_, ?_⟩
  · intro s sender id h
    obtain ⟨⟨s1, evs⟩, heq⟩ := Bridge.isOk_exists h
    have hstep : BridgeA.step s (.confirm sender id) = s1 :=
      @BridgeA.step_of_run_ok s s1 (.confirm sender id) evs heq
    have hev : BridgeA.emitted s (.confirm sender id) = evs :=
      @BridgeA.emitted_of_run_ok s s1 (.confirm sender id) evs heq
    obtain ⟨hrole, hts, hcomp, hflag, hcnt, hdone, hevc, hcfg, hnonce, hhc⟩ :=
      BridgeA.confirmTransfer_ok_spec heq
    rw [hstep, hev]
    exact ⟨hcomp, hcnt, hdone, hevc⟩
  · intro s hreach id op hc
    exact BridgeA.step_completed_persists (BridgeA.inv_reachable hreach) id op hc
  · intro s hreach id op hop
    exact BridgeA.step_completed_nonconfirm (BridgeA.inv_reachable hreach) id op hop
  · intro s sender id h
    obtain ⟨⟨s1, evs⟩, heq⟩ := Bridge.isOk_exists h
    have hstep : BridgeB.step s (.confirm sender id) = s1 :=
      @BridgeB.step_of_run_okB s s1 (.confirm sender id) evs heq
    have hev : BridgeB.emitted s (.confirm sender id) = evs :=
      @BridgeB.emitted_of_run_okB s s1 (.confirm sender id) evs heq
    obtain ⟨hrole, hp, hsender, hstatus, hflag, hcnt, hst, hnc, hevs, hcfg, hnonce,
      hrc, hfull⟩ := BridgeB.confirmTransfer_ok_specB heq
    rw [hstep, hev, hevs]
    refine ⟨?_, hnc, by simp⟩
    rw [hst]
    by_cases hdone : s.config.relayerThreshold ≤ (s.transfers id).confirmations + 1
    · simp [hdone]
    · simp [hdone]

/-- Witness for C2: relayer 7 attests the pending transfer in the
threshold-2 UUPS chain (count reaches 1, not completed); the completed
transfer of the threshold-1 chain stays completed under a pause; and in
the part_005 chain the threshold-reaching attestation yields `Confirmed`,
not `Completed`. -/
theorem C2_completion_at_threshold_witness :
    ((exA2.transfers exIdA).completed = false ∧
      ((BridgeA.step exA2 (.confirm 7 exIdA)).transfers exIdA).confirmations
        = (exA2.transfers exIdA).confirmations + 1 ∧
      (((BridgeA.step exA2 (.confirm 7 exIdA)).transfers exIdA).completed = true ↔
        exA2.config.relayerThreshold ≤ (exA2.transfers exIdA).confirmations + 1) ∧
      (BridgeA.Event.bridgeCompleted exIdA ∈ BridgeA.emitted exA2 (.confirm 7 exIdA) ↔
        ((BridgeA.step exA2 (.confirm 7 exIdA)).transfers exIdA).completed = true)) ∧
    ((BridgeA.step exAA3 (.doPause 1)).transfers exIdA).completed = true ∧
    ((BridgeA.step exAA3 (.doPause 1)).transfers exIdA).completed
      = (exAA3.transfers exIdA).completed ∧
    ((((BridgeB.step exB2 (.confirm 7 exIdB)).transfers exIdB).status
        = BridgeB.TransferStatus.confirmed ↔
      exB2.config.relayerThreshold ≤ (exB2.transfers exIdB).confirmations + 1) ∧
      ((BridgeB.step exB2 (.confirm 7 exIdB)).transfers exIdB).status
        ≠ BridgeB.TransferStatus.completed ∧
      ∀ hsh : Nat, BridgeB.Event.bridgeCompleted exIdB hsh
        ∉ BridgeB.emitted exB2 (.confirm 7 exIdB)) :=
  ⟨C2_completion_at_threshold.1 exA2 7 exIdA (by decide),
   C2_completion_at_threshold.2.1 exAA3 exAA3_reachable exIdA (.doPause 1) (by decide),
   C2_completion_at_threshold.2.2.1 exAA3 exAA3_reachable exIdA (.doPause 1)
     (fun sender i h => BridgeA.Op.noConfusion h),
   C2_completion_at_threshold.2.2.2 exB2 7 exIdB (by decide)⟩

/-- Counterexample to C2 as stated: in `src/unnamed/part_005`, with
threshold 1, the attestation whose success makes the count reach the
threshold leaves the transfer at status `Confirmed`, not `Completed`,
and emits no completion event. -/
theorem C2_counterexample :
    exB2.config.relayerThreshold ≤ (exB2.transfers exIdB).confirmations + 1 ∧
    (BridgeB.confirmTransfer exB2 7 exIdB).isOk = true ∧
    ((BridgeB.step exB2 (.confirm 7 exIdB)).transfers exIdB).status
      = BridgeB.TransferStatus.confirmed ∧
    ((BridgeB.step exB2 (.confirm 7 exIdB)).transfers exIdB).status
      ≠ BridgeB.TransferStatus.completed ∧
    BridgeB.emitted exB2 (.confirm 7 exIdB)
      = [BridgeB.Event.bridgeConfirmed exIdB 7 1] := by
  decide

/-- C6 (amended): while paused, `bridgeToTON` is rejected with
`EnforcedPause` in both variants and `confirmTransfer` is rejected in the
part_005 variant; pausing changes no transfer record, so the read-only
`getTransfer` lookup keeps returning the same record.  In the UUPS
variant, however, `confirmTransfer` carries no pause guard (see the
counterexample). -/
theorem C6_pause_blocks_request_and_attest :
    (∀ (s : BridgeA.State) (sender msgValue ts : Nat) (rec : String)
        (token amount : Nat) (pullOk : Bool), s.paused = true →
        BridgeA.bridgeToTON s sender msgValue ts rec token amount pullOk
          = .error .enforcedPause) ∧
    (∀ (s : BridgeB.State) (sender msgValue ts : Nat) (rec : String)
        (token amount : Nat) (pullOk : Bool), s.paused = true →
        BridgeB.bridgeToTON s sender msgValue ts rec token amount pullOk
          = .error .enforcedPause) ∧
    (∀ (s : BridgeB.State) (sender : Nat) (id : BridgeB.TransferId),
        s.paused = true → s.relayers sender = true →
        BridgeB.confirmTransfer s sender id = .error .enforcedPause) ∧
    (∀ (s : BridgeA.State) (sender : Nat) (id : BridgeA.TransferId),
        BridgeA.getTransfer (BridgeA.step s (.doPause sender)) id
          = BridgeA.getTransfer s id) ∧
    (∀ (s : BridgeB.State) (sender : Nat) (id : BridgeB.TransferId),
        BridgeB.getTransfer (BridgeB.step s (.doPause sender)) id
          = BridgeB.getTransfer s id) := by
  refine ⟨?_, ?_, ?_, ?_, ?_⟩
  · intro s sender msgValue ts rec token amount pullOk hp
    unfold BridgeA.bridgeToTON
    rw [if_pos hp]
  · intro s sender msgValue ts rec token amount pullOk hp
    unfold BridgeB.bridgeToTON
    rw [if_pos hp]
  · intro s sender id hp hrole
    simp [BridgeB.confirmTransfer, hp, hrole]
  · intro s sender id
    unfold BridgeA.getTransfer
    simp only [BridgeA.step, BridgeA.run, BridgeA.pause]
    split_ifs <;> rfl
  · intro s sender id
    unfold BridgeB.getTransfer
    simp only [BridgeB.step, BridgeB.run, BridgeB.pause]
    split_ifs <;> rfl

/-- Witness for C6 at concrete paused states. -/
theorem C6_pause_blocks_request_and_attest_witness :
    BridgeA.bridgeToTON exA3 5 100 11 "EQx" 0 100 true = .error .enforcedPause ∧
    BridgeB.bridgeToTON exB3 5 10000 11 "EQx" 0 10000 true = .error .enforcedPause ∧
    BridgeB.confirmTransfer exB3 7 exIdB = .error .enforcedPause ∧
    BridgeA.getTransfer (BridgeA.step exA2 (.doPause 1)) exIdA
      = BridgeA.getTransfer exA2 exIdA ∧
    BridgeB.getTransfer (BridgeB.step exB2 (.doPause 1)) exIdB
      = BridgeB.getTransfer exB2 exIdB :=
  ⟨C6_pause_blocks_request_and_attest.1 exA3 5 100 11 "EQx" 0 100 true (by decide),
   C6_pause_blocks_request_and_attest.2.1 exB3 5 10000 11 "EQx" 0 10000 true (by decide),
   C6_pause_blocks_request_and_attest.2.2.1 exB3 7 exIdB (by decide) (by decide),
   C6_pause_blocks_request_and_attest.2.2.2.1 exA2 1 exIdA,
   C6_pause_blocks_request_and_attest.2.2.2.2 exB2 1 exIdB⟩

/-- Counterexample to C6 as stated: in the UUPS variant, a relayer can
still attest while the bridge is paused — `confirmTransfer` has no
`whenNotPaused` modifier, so the call succeeds and mutates state. -/
theorem C6_counterexample :
    exA3.paused = true ∧
    (BridgeA.confirmTransfer exA3 7 exIdA).isOk = true ∧
    ((BridgeA.step exA3 (.confirm 7 exIdA)).transfers exIdA).confirmations = 1 := by
  decide

/-- C7 (amended): the part_005 `updateConfig` rejects configurations with
`minAmount >= maxAmount` or `feeBasisPoints` above the 1000 bp ceiling
with `InvalidConfiguration` and rolls back; an accepted update replaces
the whole config struct in one step and touches nothing else.  The UUPS
variant's `updateConfig` performs no validation: an admin call replaces
the config wholesale whatever its contents (see the counterexample). -/
theorem C7_update_config_validation :
    (∀ (s : BridgeB.State) (sender : Nat) (newConfig : BridgeB.BridgeConfig),
        s.operators sender = true →
        newConfig.maxBridgeAmount ≤ newConfig.minBridgeAmount →
        BridgeB.updateConfig s sender newConfig = .error .invalidConfiguration) ∧
    (∀ (s : BridgeB.State) (sender : Nat) (newConfig : BridgeB.BridgeConfig),
        s.operators sender = true → 1000 < newConfig.feeBasisPoints →
        BridgeB.updateConfig s sender newConfig = .error .invalidConfiguration) ∧
    (∀ (s : BridgeB.State) (sender : Nat) (newConfig : BridgeB.BridgeConfig),
        newConfig.maxBridgeAmount ≤ newConfig.minBridgeAmount ∨
          1000 < newConfig.feeBasisPoints →
        BridgeB.step s (.update sender newConfig) = s) ∧
    (∀ (s : BridgeB.State) (sender : Nat) (newConfig : BridgeB.BridgeConfig),
        (BridgeB.updateConfig s sender newConfig).isOk = true →
        (BridgeB.step s (.update sender newConfig)).config = newConfig ∧
        (BridgeB.step s (.update sender newConfig)).transfers = s.transfers ∧
        (BridgeB.step s (.update sender newConfig)).collectedFees = s.collectedFees) ∧
    (∀ (s : BridgeA.State) (sender : Nat) (newConfig : BridgeA.BridgeConfig),
        s.admins sender = true →
        BridgeA.updateConfig s sender newConfig =
          .ok ({ s with config := newConfig }, [.configUpdated newConfig])) := by
  refine ⟨?_, ?_, ?_, ?_, ?_⟩
  · intro s sender newConfig hrole hbad
    simp [BridgeB.updateConfig, hrole, hbad]
  · intro s sender newConfig hrole hfee
    by_cases hmm : newConfig.maxBridgeAmount ≤ newConfig.minBridgeAmount
    · simp [BridgeB.updateConfig, hrole, hmm]
    · simp [BridgeB.updateConfig, hrole, hmm, hfee]
  · intro s sender newConfig hbad
    simp only [BridgeB.step, BridgeB.run, BridgeB.updateConfig]
    split_ifs with h1 h2 h3 <;>
      first
        | rfl
        | (cases hbad with
            | inl hb => exact absurd hb h2
            | inr hb => exact absurd hb h3)
  · intro s sender newConfig h
    obtain ⟨⟨s1, evs⟩, heq⟩ := Bridge.isOk_exists h
    have hstep : BridgeB.step s (.update sender newConfig) = s1 :=
      @BridgeB.step_of_run_okB s s1 (.update sender newConfig) evs heq
    simp only [BridgeB.updateConfig] at heq
    split_ifs at heq
    simp only [Except.ok.injEq, Prod.mk.injEq] at heq
    obtain ⟨hs, hevs⟩ := heq
    subst hs
    rw [hstep]
    exact ⟨rfl, rfl, rfl⟩
  · intro s sender newConfig hrole
    simp [BridgeA.updateConfig, hrole]

/-- Witness for C7: a rejected invalid update in part_005 and an accepted
whole-struct replacement in both variants, at concrete states. -/
theorem C7_update_config_validation_witness :
    BridgeB.updateConfig exB0 1
        { minBridgeAmount := 5, maxBridgeAmount := 3, feeBasisPoints := 50000,
          relayerThreshold := 0, enabled := true }
      = .error .invalidConfiguration ∧
    BridgeB.updateConfig exB0 1
        { exCfgB with feeBasisPoints := 2000 } = .error .invalidConfiguration ∧
    BridgeB.step exB0 (.update 1
        { minBridgeAmount := 5, maxBridgeAmount := 3, feeBasisPoints := 50000,
          relayerThreshold := 0, enabled := true }) = exB0 ∧
    ((BridgeB.step exB0 (.update 1 { exCfgB with feeBasisPoints := 50 })).config
        = { exCfgB with feeBasisPoints := 50 } ∧
      (BridgeB.step exB0 (.update 1 { exCfgB with feeBasisPoints := 50 })).transfers
        = exB0.transfers ∧
      (BridgeB.step exB0 (.update 1 { exCfgB with feeBasisPoints := 50 })).collectedFees
        = exB0.collectedFees) ∧
    BridgeA.updateConfig exA0 1 exBadCfgA =
      .ok ({ exA0 with config := exBadCfgA }, [.configUpdated exBadCfgA]) :=
  ⟨C7_update_config_validation.1 exB0 1 _ (by decide) (by decide),
   C7_update_config_validation.2.1 exB0 1 _ (by decide) (by decide),
   C7_update_config_validation.2.2.1 exB0 1 _ (Or.inl (by decide)),
   C7_update_config_validation.2.2.2.1 exB0 1 _ (by decide),
   C7_update_config_validation.2.2.2.2 exA0 1 exBadCfgA (by decide)⟩

/-- Counterexample to C7 as stated: the UUPS variant's `updateConfig`
accepts a configuration with `minAmount >= maxAmount` and a fee rate far
above the ceiling, and stores it. -/
theorem C7_counterexample :
    exBadCfgA.maxBridgeAmount ≤ exBadCfgA.minBridgeAmount ∧
    1000 < exBadCfgA.feeBasisPoints ∧
    (BridgeA.updateConfig exA0 1 exBadCfgA).isOk = true ∧
    (BridgeA.step exA0 (.update 1 exBadCfgA)).config = exBadCfgA := by
  decide

/-- C9 (amended): each variant rejects, with a distinct custom error and
a full rollback, exactly the precondition violations it checks — the
UUPS variant: BridgeDisabled, UnsupportedToken, InsufficientAmount,
ExceedsMaxAmount (but it never validates the recipient, accepting an
empty one); part_005: UnsupportedToken, InvalidRecipient,
InsufficientAmount, ExceedsMaxAmount (but it never consults the
`enabled` flag); insufficient native funding is rejected by a `require`
with a reason string rather than a distinct custom error kind; every
revert leaves the state unchanged. -/
theorem C9_request_error_kinds :
    (∀ (s : BridgeA.State) (sender msgValue ts : Nat) (rec : String)
        (token amount : Nat) (pullOk : Bool),
        s.paused = false → s.config.enabled = false →
        BridgeA.bridgeToTON s sender msgValue ts rec token amount pullOk
          = .error .bridgeDisabled) ∧
    (∀ (s : BridgeA.State) (sender msgValue ts : Nat) (rec : String)
        (token amount : Nat) (pullOk : Bool),
        s.paused = false → s.config.enabled = true →
        s.supportedTokens token = false →
        BridgeA.bridgeToTON s sender msgValue ts rec token amount pullOk
          = .error .unsupportedToken) ∧
    (∀ (s : BridgeA.State) (sender msgValue ts : Nat) (rec : String)
        (token amount : Nat) (pullOk : Bool),
        s.paused = false → s.config.enabled = true →
        s.supportedTokens token = true → amount < s.config.minBridgeAmount →
        BridgeA.bridgeToTON s sender msgValue ts rec token amount pullOk
          = .error .insufficientAmount) ∧
    (∀ (s : BridgeA.State) (sender msgValue ts : Nat) (rec : String)
        (token amount : Nat) (pullOk : Bool),
        s.paused = false → s.config.enabled = true →
        s.supportedTokens token = true → ¬ amount < s.config.minBridgeAmount →
        s.config.maxBridgeAmount < amount →
        BridgeA.bridgeToTON s sender msgValue ts rec token amount pullOk
          = .error .exceedsMaxAmount) ∧
    (∀ (s : BridgeB.State) (sender msgValue ts : Nat) (rec : String)
        (token amount : Nat) (pullOk : Bool),
        s.paused = false → s.supportedTokens token = false →
        BridgeB.bridgeToTON s sender msgValue ts rec token amount pullOk
          = .error .unsupportedToken) ∧
    (∀ (s : BridgeB.State) (sender msgValue ts : Nat) (token amount : Nat)
        (pullOk : Bool),
        s.paused = false → s.supportedTokens token = true →
        BridgeB.bridgeToTON s sender msgValue ts "" token amount pullOk
          = .error .invalidRecipient) ∧
    (∀ (s : BridgeB.State) (sender msgValue ts : Nat) (rec : String)
        (token amount : Nat) (pullOk : Bool),
        s.paused = false → s.supportedTokens token = true →
        rec.length ≠ 0 → amount < s.config.minBridgeAmount →
        BridgeB.bridgeToTON s sender msgValue ts rec token amount pullOk
          = .error .insufficientAmount) ∧
    (∀ (s : BridgeB.State) (sender msgValue ts : Nat) (rec : String)
        (token amount : Nat) (pullOk : Bool),
        s.paused = false → s.supportedTokens token = true →
        rec.length ≠ 0 → ¬ amount < s.config.minBridgeAmount →
        s.config.maxBridgeAmount < amount →
        BridgeB.bridgeToTON s sender msgValue ts rec token amount pullOk
          = .error .exceedsMaxAmount) ∧
    (∀ (s : BridgeB.State) (sender msgValue ts : Nat) (rec : String)
        (amount : Nat) (pullOk : Bool),
        s.paused = false → s.supportedTokens 0 = true →
        rec.length ≠ 0 → ¬ amount < s.config.minBridgeAmount →
        ¬ s.config.maxBridgeAmount < amount →
        ¬ Bridge.UINT256 ≤ amount * s.config.feeBasisPoints →
        ¬ amount < amount * s.config.feeBasisPoints / 10000 →
        msgValue ≠ amount →
        BridgeB.bridgeToTON s sender msgValue ts rec 0 amount pullOk
          = .error (.requireMsg "Incorrect POL amount")) ∧
    (∀ (s : BridgeA.State) (op : BridgeA.Op) (e : Bridge.Err),
        BridgeA.run s op = .error e → BridgeA.step s op = s) ∧
    (∀ (s : BridgeB.State) (op : BridgeB.Op) (e : Bridge.Err),
        BridgeB.run s op = .error e → BridgeB.step s op = s) ∧
    (BridgeA.bridgeToTON exA0 5 100 11 "" 0 100 true).isOk = true ∧
    (BridgeB.bridgeToTON exBd0 5 10000 11 "EQx" 0 10000 true).isOk = true := by
  refine ⟨?_, ?_, ?_, ?_, ?_, ?_, ?_, ?_, ?_, ?_, ?_, by decide, by decide⟩
  · intro s sender msgValue ts rec token amount pullOk hp hen
    simp [BridgeA.bridgeToTON, hp, hen]
  · intro s sender msgValue ts rec token amount pullOk hp hen hsup
    simp [BridgeA.bridgeToTON, hp, hen, hsup]
  · intro s sender msgValue ts rec token amount pullOk hp hen hsup hmin
    simp [BridgeA.bridgeToTON, hp, hen, hsup, hmin]
  · intro s sender msgValue ts rec token amount pullOk hp hen hsup hmin hmax
    simp [BridgeA.bridgeToTON, hp, hen, hsup, hmin, hmax]
  · intro s sender msgValue ts rec token amount pullOk hp hsup
    simp [BridgeB.bridgeToTON, hp, hsup]
  · intro s sender msgValue ts token amount pullOk hp hsup
    simp [BridgeB.bridgeToTON, hp, hsup]
  · intro s sender msgValue ts rec token amount pullOk hp hsup hlen hmin
    simp [BridgeB.bridgeToTON, hp, hsup, hlen, hmin]
  · intro s sender msgValue ts rec token amount pullOk hp hsup hlen hmin hmax
    simp [BridgeB.bridgeToTON, hp, hsup, hlen, hmin, hmax]
  · intro s sender msgValue ts rec amount pullOk hp hsup hlen hmin hmax hof huf hval
    simp [BridgeB.bridgeToTON, hp, hsup, hlen, hmin, hmax, hof, huf, hval]
  · intro s op e h
    exact BridgeA.step_of_run_error h
  · intro s op e h
    exact BridgeB.step_of_run_errorB h

/-- Witness for C9: each rejection instantiated at a concrete state and
input, plus a concrete rolled-back revert in each variant. -/
theorem C9_request_error_kinds_witness :
    BridgeA.bridgeToTON exA0d 5 100 11 "EQx" 0 100 true = .error .bridgeDisabled ∧
    BridgeA.bridgeToTON exA0 5 100 11 "EQx" 1 100 true = .error .unsupportedToken ∧
    BridgeA.bridgeToTON exA0 5 0 11 "EQx" 0 0 true = .error .insufficientAmount ∧
    BridgeA.bridgeToTON exA0 5 2000 11 "EQx" 0 2000 true = .error .exceedsMaxAmount ∧
    BridgeB.bridgeToTON exB0 5 10000 11 "EQx" 1 10000 true = .error .unsupportedToken ∧
    BridgeB.bridgeToTON exB0 5 10000 11 "" 0 10000 true = .error .invalidRecipient ∧
    BridgeB.bridgeToTON exB0 5 0 11 "EQx" 0 0 true = .error .insufficientAmount ∧
    BridgeB.bridgeToTON exB0 5 200000 11 "EQx" 0 200000 true
      = .error .exceedsMaxAmount ∧
    BridgeB.bridgeToTON exB0 5 4 11 "EQx" 0 5 true
      = .error (.requireMsg "Incorrect POL amount") ∧
    BridgeA.step exA0 (.doUnpause 1) = exA0 ∧
    BridgeB.step exB0 (.doUnpause 1) = exB0 :=
  ⟨C9_request_error_kinds.1 exA0d 5 100 11 "EQx" 0 100 true (by decide) (by decide),
   C9_request_error_kinds.2.1 exA0 5 100 11 "EQx" 1 100 true
     (by decide) (by decide) (by decide),
   C9_request_error_kinds.2.2.1 exA0 5 0 11 "EQx" 0 0 true
     (by decide) (by decide) (by decide) (by decide),
   C9_request_error_kinds.2.2.2.1 exA0 5 2000 11 "EQx" 0 2000 true
     (by decide) (by decide) (by decide) (by decide) (by decide),
   C9_request_error_kinds.2.2.2.2.1 exB0 5 10000 11 "EQx" 1 10000 true
     (by decide) (by decide),
   C9_request_error_kinds.2.2.2.2.2.1 exB0 5 10000 11 0 10000 true
     (by decide) (by decide),
   C9_request_error_kinds.2.2.2.2.2.2.1 exB0 5 0 11 "EQx" 0 0 true
     (by decide) (by decide) (by decide) (by decide),
   C9_request_error_kinds.2.2.2.2.2.2.2.1 exB0 5 200000 11 "EQx" 0 200000 true
     (by decide) (by decide) (by decide) (by decide) (by decide),
   C9_request_error_kinds.2.2.2.2.2.2.2.2.1 exB0 5 4 11 "EQx" 5 true
     (by decide) (by decide) (by decide) (by decide) (by decide) (by decide)
     (by decide) (by decide),
   C9_request_error_kinds.2.2.2.2.2.2.2.2.2.1 exA0 (.doUnpause 1) .expectedPause
     (by rfl),
   C9_request_error_kinds.2.2.2.2.2.2.2.2.2.2.1 exB0 (.doUnpause 1) .expectedPause
     (by rfl)⟩

/-- Counterexample to C9 as stated: the UUPS variant accepts a request
with an empty destination recipient instead of rejecting it with
InvalidRecipient — the call succeeds and persists a transfer whose
recipient is the empty string. -/
theorem C9_counterexample :
    (BridgeA.bridgeToTON exA0 5 100 11 "" 0 100 true).isOk = true ∧
    ((BridgeA.step exA0 (.bridge 5 100 11 "" 0 100 true)).transfers
        { sender := 5, token := 0, amount := 100, tonRecipient := "", nonce := 0 }).sender
      = 5 ∧
    ((BridgeA.step exA0 (.bridge 5 100 11 "" 0 100 true)).transfers
        { sender := 5, token := 0, amount := 100, tonRecipient := "", nonce := 0 }).tonRecipient
      = "" := by
  decide

/-- Counting an element that satisfies the predicate is unchanged by
filtering. -/
theorem count_filter_of_pred {α : Type} [DecidableEq α] (p : α → Bool) (l : List α)
    (a : α) (h : p a = true) : (l.filter p).count a = l.count a := by
  induction l with
  | nil => rfl
  | cons b l ih =>
      rw [List.filter_cons]
      by_cases hpb : p b = true
      · rw [if_pos hpb]
        by_cases hb : b = a
        · subst hb
          rw [List.count_cons_self, List.count_cons_self, ih]
        · rw [List.count_cons_of_ne (fun he => hb he.symm),
              List.count_cons_of_ne (fun he => hb he.symm), ih]
      · rw [if_neg hpb]
        by_cases hb : b = a
        · subst hb
          exact absurd h hpb
        · rw [List.count_cons_of_ne (fun he => hb he.symm), ih]

/-- C8 (amended): for a `BridgeInitiated` event in the scanned range whose
transfer is not completed, one `poll` cycle submits exactly one
`confirmTransfer` for its id when the TON send succeeds within the
bounded retries (`maxRetries = 3`); when all three attempts fail, the
cycle submits nothing for it — but the cursor has already been advanced
to the scanned range's end, nothing records the event as outstanding,
and no later cycle (whose cursor is at least this one's) ever sees the
event again. -/
theorem C8_loop_single_confirm_or_drop :
    (∀ (chain : Relayer.Chain) (attemptOk : BridgeA.TransferId → Nat → Bool)
        (ls : Relayer.LoopState) (e : Relayer.BridgeEvent),
        e ∈ chain.events →
        ls.lastBlock < e.blockNumber →
        e.blockNumber ≤ chain.currentBlock →
        (chain.transfers e.transferId).completed = false →
        (∀ e2 ∈ chain.events, e2.transferId = e.transferId → e2 = e) →
        chain.events.count e = 1 →
        (Relayer.poll chain attemptOk ls).1.lastBlock = chain.currentBlock ∧
        ((Relayer.sendNativeTon (attemptOk e.transferId)).1 = true →
          (Relayer.poll chain attemptOk ls).2.count e.transferId = 1) ∧
        ((Relayer.sendNativeTon (attemptOk e.transferId)).1 = false →
          (Relayer.poll chain attemptOk ls).2.count e.transferId = 0 ∧
          ∀ (chain2 : Relayer.Chain) (ls2 : Relayer.LoopState),
            chain.currentBlock ≤ ls2.lastBlock →
            e ∉ Relayer.scanned chain2 ls2)) ∧
    (∀ attemptOk : Nat → Bool,
        (Relayer.sendNativeTon attemptOk).2 ≤ Relayer.maxRetries) := by
  constructor
  · intro chain attemptOk ls e hmem hlo hhi hcomp huniq hcount
    have hgt : ¬ chain.currentBlock ≤ ls.lastBlock := by omega
    have hpoll : Relayer.poll chain attemptOk ls =
        ({ lastBlock := chain.currentBlock },
         (Relayer.scanned chain ls).filterMap fun e2 =>
           if (chain.transfers e2.transferId).completed then none
           else if (Relayer.sendNativeTon (attemptOk e2.transferId)).1 then
             some e2.transferId
           else none) := by
      unfold Relayer.poll
      rw [if_neg hgt]
    have hf : ∀ (a : Relayer.BridgeEvent) (b : BridgeA.TransferId),
        (if (chain.transfers a.transferId).completed then none
         else if (Relayer.sendNativeTon (attemptOk a.transferId)).1 then
           some a.transferId
         else none) = some b → b = a.transferId := by
      intro a b hab
      split_ifs at hab <;>
        first
          | exact Option.noConfusion hab
          | exact (Option.some.inj hab).symm
    have huniqS : ∀ a ∈ Relayer.scanned chain ls, a.transferId = e.transferId → a = e :=
      fun a ha hk => huniq a (List.mem_filter.mp ha).1 hk
    have hcountS : (Relayer.scanned chain ls).count e = 1 := by
      unfold Relayer.scanned
      rw [count_filter_of_pred _ _ _
        (by simp only [Bool.and_eq_true, decide_eq_true_eq]; omega)]
      exact hcount
    have hkey := Relayer.count_filterMap_unique
      (fun e2 => if (chain.transfers e2.transferId).completed then none
        else if (Relayer.sendNativeTon (attemptOk e2.transferId)).1 then
          some e2.transferId
        else none)
      Relayer.BridgeEvent.transferId hf (Relayer.scanned chain ls) e huniqS
    rw [hpoll]
    refine ⟨rfl, ?_, ?_⟩
    · intro hsend
      have hfe : (if (chain.transfers e.transferId).completed then none
          else if (Relayer.sendNativeTon (attemptOk e.transferId)).1 then
            some e.transferId
          else none) = some e.transferId := by
        simp [hcomp, hsend]
      dsimp only
      rw [hkey, if_pos hfe, hcountS]
    · intro hsend
      constructor
      · have hfe : (if (chain.transfers e.transferId).completed then none
            else if (Relayer.sendNativeTon (attemptOk e.transferId)).1 then
              some e.transferId
            else none) = none := by
          simp [hcomp, hsend]
        dsimp only
        rw [hkey]
        simp [hfe]
      · intro chain2 ls2 hle hmem2
        unfold Relayer.scanned at hmem2
        rw [List.mem_filter] at hmem2
        have h2 := hmem2.2
        simp only [Bool.and_eq_true, decide_eq_true_eq] at h2
        omega
  · exact Relayer.sendNativeTon_attempts_le

/-- Witness for C8: the chain holds one event at block 5; the TON
executor fails twice and succeeds on the third attempt, matching the
spec example; the cycle submits exactly one confirmTransfer. -/
theorem C8_loop_single_confirm_or_drop_witness :
    ((Relayer.poll exChainR (fun _ k => decide (k = 3))
        { lastBlock := 4 }).1.lastBlock = exChainR.currentBlock ∧
      ((Relayer.sendNativeTon ((fun _ k => decide (k = 3)) exIdA)).1 = true →
        (Relayer.poll exChainR (fun _ k => decide (k = 3))
          { lastBlock := 4 }).2.count exIdA = 1) ∧
      ((Relayer.sendNativeTon ((fun _ k => decide (k = 3)) exIdA)).1 = false →
        (Relayer.poll exChainR (fun _ k => decide (k = 3))
          { lastBlock := 4 }).2.count exIdA = 0 ∧
        ∀ (chain2 : Relayer.Chain) (ls2 : Relayer.LoopState),
          exChainR.currentBlock ≤ ls2.lastBlock →
          { blockNumber := 5, transferId := exIdA } ∉ Relayer.scanned chain2 ls2)) ∧
    (Relayer.sendNativeTon (fun k => decide (k = 3))).2 ≤ Relayer.maxRetries :=
  ⟨C8_loop_single_confirm_or_drop.1 exChainR (fun _ k => decide (k = 3))
      { lastBlock := 4 } { blockNumber := 5, transferId := exIdA }
      (by decide) (by decide) (by decide) (by decide) (by decide) (by decide),
   C8_loop_single_confirm_or_drop.2 (fun k => decide (k = 3))⟩

/-- Counterexample to C8 as stated: when all three TON send attempts fail,
the loop submits no attestation, but the event is NOT seen again in a
later cycle: the cursor was advanced to the scanned range's end before
the event was resolved, nothing records it as outstanding, and the next
cycle's `getLogs` range no longer contains it. -/
theorem C8_counterexample :
    (Relayer.sendNativeTon (fun _ => false)).1 = false ∧
    Relayer.poll exChainR (fun _ _ => false) { lastBlock := 4 }
      = ({ lastBlock := 5 }, []) ∧
    (exChainR.transfers exIdA).completed = false ∧
    Relayer.scanned exChainR2 { lastBlock := 5 } = [] := by
  decide
